import Mathlib

/-!
# A text chat over one TCP connection: client and two servers

Embedding of `tcp_client.c`, `tcp_server.c` and `tcp_server02.c`.

* C buffers are lists of bytes, a byte being a natural number; `memset`, `strlen`, `strncmp`, `fgets` and the
  filling done by `recv`/`read` are functions on them.
* Every system call whose result the environment decides (`recv`, `read`,
  `send`, `select`, `accept`, `malloc`, `pthread_create`) takes its result as
  an argument. Standard input is the stream of bytes the operator types; an
  empty stream is end of input.
* Every loop body is a function from the state before the iteration to the
  console and socket operations it performs (`Event`s, in program order) and
  the state after it. The loops of one thread are recursive functions over
  the list of results the environment gives, one entry per iteration; a list
  that runs out leaves the thread blocked in its next call.
* The two programs with a receive thread beside the main thread
  (`tcp_client.c`, `tcp_server.c`) are also given as machines whose steps are
  the same loop bodies, run in the order a schedule fixes; so is the acceptor
  of `tcp_server02.c`.

The theorems follow the definitions: facts about buffers and loop bodies, the
receive paths, the send paths, then closing, stopping and accepting.
-/

namespace TcpChat

/-! ## C buffers and strings -/

/-- Buffer size of the three programs (`#define BUF_SIZE 1024`). -/
def BUF_SIZE : Nat := 1024

/-- The terminating zero byte of a C string. -/
def NUL : Nat := 0

/-- The line feed that ends a typed line. -/
def NEWLINE : Nat := 10

/-- The string literal `"exit"` (without its terminator). -/
def exitLit : List Nat := [101, 120, 105, 116]

/-- A buffer of `n` bytes after `memset(buf, c, n)` (also `bzero` for `c = 0`). -/
def memset (n : Nat) (c : Nat) : List Nat := List.replicate n c

/-- Writing `data` at the start of `buf`; the bytes behind it stay. -/
def store (buf data : List Nat) : List Nat := data ++ buf.drop data.length

/-- The C function `strlen`: the number of bytes before the first zero byte. -/
def strlen : List Nat → Nat
  | [] => 0
  | b :: bs => if b = NUL then 0 else strlen bs + 1

/-- The bytes `printf("%s")` prints and `send(fd, buf, strlen(buf))` sends:
those before the first zero byte. -/
def cString : List Nat → List Nat
  | [] => []
  | b :: bs => if b = NUL then [] else b :: cString bs

/-- The C function `strncmp` on at most `n` bytes; a list that ends is read as
ending in a zero byte. Only the sign of the result is meaningful. -/
def strncmp : List Nat → List Nat → Nat → Int
  | _, _, 0 => 0
  | a, b, n + 1 =>
    if a.headD NUL ≠ b.headD NUL then (a.headD NUL : Int) - (b.headD NUL : Int)
    else if a.headD NUL = NUL then 0
    else strncmp a.tail b.tail n

/-- The bytes one `fgets` call takes from the stream when it has room for
`room` of them: up to and including the first line feed. The second component
is what stays in the stream. -/
def readLine : Nat → List Nat → List Nat × List Nat
  | 0, s => ([], s)
  | _ + 1, [] => ([], [])
  | room + 1, b :: s =>
    if b = NEWLINE then ([b], s)
    else (b :: (readLine room s).1, (readLine room s).2)

/-- The C call `fgets(buf, size, stdin)`: whether it returned non-NULL, the
buffer after the call and the rest of the stream. At end of input it returns
NULL and leaves the buffer as it was. -/
def fgets (buf : List Nat) (size : Nat) (stdin : List Nat) :
    Bool × List Nat × List Nat :=
  match stdin with
  | [] => (false, buf, [])
  | _ :: _ =>
    (true, store buf ((readLine (size - 1) stdin).1 ++ [NUL]), (readLine (size - 1) stdin).2)

/-- What the connection hands to one `recv`/`read` call: bytes (none of them
is the orderly close of the peer) or a failure. -/
inductive Incoming where
  | bytes (d : List Nat)
  | failure
  deriving DecidableEq

/-- The C call `recv(fd, buf, len, 0)` (and `read(fd, buf, len)`): the value
returned and the buffer after the call. At most `len` bytes are taken. -/
def recv (buf : List Nat) (len : Nat) : Incoming → Int × List Nat
  | .failure => (-1, buf)
  | .bytes d => (((d.take len).length : Nat), store buf (d.take len))

/-! ## Observable operations -/

/-- One operation of a program, as seen from outside. -/
inductive Event where
  /-- Fixed text written with `printf`/`fprintf`. -/
  | printf (text : String)
  /-- Text written with `printf` whose `%s` is a buffer: the format and the
  bytes printed for the buffer. -/
  | display (format : String) (data : List Nat)
  /-- A call of `perror`. -/
  | perror (text : String)
  /-- A `recv`/`read` on `fd` returned `n`. -/
  | recv (fd : Int) (n : Int)
  /-- A `send` of `payload` on `fd` returned `ret`. -/
  | send (fd : Int) (payload : List Nat) (ret : Int)
  /-- The call `close(fd)`. -/
  | close (fd : Int)
  /-- A call of `fgets` on standard input returned; `got` is false for NULL. -/
  | fgets (got : Bool)
  /-- A call of `select` returned `ret`. -/
  | select (ret : Int)
  /-- A call of `accept` returned `ret`. -/
  | accept (ret : Int)
  /-- A thread was created for the connection `fd`. -/
  | spawn (fd : Int)
  /-- The assignment `client_live_flag = v`. -/
  | live (v : Int)
  /-- The process ended with `status`. -/
  | exit (status : Nat)
  deriving DecidableEq

/-- The payloads of the `send` calls of a trace, in order. -/
def sentPayloads : List Event → List (List Nat)
  | [] => []
  | .send _ p _ :: es => p :: sentPayloads es
  | _ :: es => sentPayloads es

/-- The number of `close(fd)` calls in a trace. -/
def closeCount (fd : Int) (es : List Event) : Nat := es.count (.close fd)

/-! ## tcp_client.c -/

/-- One pass through the body of `while (true)` in `receive_from_server`:
the operations and whether the loop goes on. `beyond` is the memory behind
`buf`, which `printf` reaches if `buf` holds no zero byte. -/
def receive_from_server_body (fd : Int) (beyond : List Nat) (inc : Incoming) :
    List Event × Bool :=
  let r := recv (memset BUF_SIZE 0) (BUF_SIZE - 1) inc
  if r.1 > 0 then
    ([.recv fd r.1, .display "从服务器接收到数据: %s\n" (cString (r.2 ++ beyond))], true)
  else
    ([.recv fd r.1,
      if r.1 = 0 then .printf "服务器断开连接\n" else .perror "接受错误",
      .close fd], false)

/-- One pass through the body of the send loop of `main` in `tcp_client.c`,
with `ret` the value `send` returns: the operations, the rest of standard
input and whether the loop goes on. -/
def client_send_body (fd : Int) (stdin : List Nat) (ret : Int) :
    List Event × List Nat × Bool :=
  let g := fgets (memset BUF_SIZE 0) BUF_SIZE stdin
  if g.1 = false then
    ([.printf "请输入要发送的字符串: ", .fgets false, .perror "fgets error"], g.2.2, false)
  else if ret < 0 then
    ([.printf "请输入要发送的字符串: ", .fgets true, .send fd (cString g.2.1) ret,
      .perror "发送错误:"], g.2.2, false)
  else if strncmp g.2.1 exitLit 4 = 0 then
    ([.printf "请输入要发送的字符串: ", .fgets true, .send fd (cString g.2.1) ret], g.2.2, false)
  else
    ([.printf "请输入要发送的字符串: ", .fgets true, .send fd (cString g.2.1) ret], g.2.2, true)

/-- What `main` of `tcp_client.c` does after its send loop. -/
def client_finish (fd : Int) : List Event :=
  [.close fd, .printf "客户端程序结束\n", .exit 0]

/-- The send loop of `main` in `tcp_client.c` and the code behind it, over the
values its `send` calls return. -/
def client_send_loop (fd : Int) : List Nat → List Int → List Event
  | _, [] => []
  | stdin, ret :: rets =>
    if (client_send_body fd stdin ret).2.2 then
      (client_send_body fd stdin ret).1 ++ client_send_loop fd (client_send_body fd stdin ret).2.1 rets
    else (client_send_body fd stdin ret).1 ++ client_finish fd

/-- The state of the client process: what the operator will still type,
whether `main` has not yet called `exit`, whether `receive_from_server` has
not yet returned, and the operations so far. -/
structure Client where
  stdin : List Nat
  mainAlive : Bool
  receiverAlive : Bool
  trace : List Event
  deriving DecidableEq

/-- What the environment does next to the client: `fgets` in `main` returns
(and the `send` behind it returns `sendRet`), or `recv` in the receive thread
returns. -/
inductive ClientAction where
  | lineTyped (sendRet : Int)
  | recvReturns (inc : Incoming)
  deriving DecidableEq

/-- The client after `connect` and `pthread_create` succeeded. -/
def Client.start (stdin : List Nat) : Client :=
  { stdin := stdin, mainAlive := true, receiverAlive := true,
    trace := [.printf "服务器连接成功...\n\n"] }

/-- One step of the client process: one thread runs from the return of the
call it waits in (`fgets`, `recv`) through one pass of its loop. `exit` in
`main` ends the receive thread too. -/
def Client.step (fd : Int) (beyond : List Nat) (c : Client) : ClientAction → Client
  | .lineTyped ret =>
    if c.mainAlive = false then c
    else if (client_send_body fd c.stdin ret).2.2 then
      { c with stdin := (client_send_body fd c.stdin ret).2.1,
               trace := c.trace ++ (client_send_body fd c.stdin ret).1 }
    else
      { c with stdin := (client_send_body fd c.stdin ret).2.1,
               trace := c.trace ++ (client_send_body fd c.stdin ret).1 ++ client_finish fd,
               mainAlive := false }
  | .recvReturns inc =>
    if c.mainAlive = false ∨ c.receiverAlive = false then c
    else
      { c with trace := c.trace ++ (receive_from_server_body fd beyond inc).1,
               receiverAlive := (receive_from_server_body fd beyond inc).2 }

/-- The client process under a schedule. -/
def Client.run (fd : Int) (beyond : List Nat) (c : Client) (acts : List ClientAction) : Client :=
  acts.foldl (Client.step fd beyond) c

/-! ## tcp_server.c -/

/-- One pass through the body of `while (!stop)` in `ReceivedFromClient`: the
operations, the buffer `receive_msgBuffer` afterwards and whether the body
ended without `break`. `beyond` is the memory behind the buffer. -/
def ReceivedFromClient_body (fd : Int) (beyond buf : List Nat) (inc : Incoming) :
    List Event × List Nat × Bool :=
  let r := recv buf BUF_SIZE inc
  if r.1 > 0 then
    ([.recv fd r.1, .display "recv from [%s], data is = %s\n" (cString (r.2 ++ beyond))],
      memset BUF_SIZE 0, true)
  else if r.1 = 0 then ([.recv fd r.1, .printf "客户端断开连接\n"], r.2, false)
  else ([.recv fd r.1, .perror "读取客户端发送的数据错误"], r.2, false)

/-- What `ReceivedFromClient` does after its loop: `close`, `free`,
`client_live_flag = 0`, `pthread_exit`. -/
def ReceivedFromClient_end (fd : Int) : List Event := [.close fd, .live 0]

/-- One pass through the send loop of `main` in `tcp_server.c` from its
`memset` on, with `ret` the value `send` returns: the operations, the rest of
standard input and whether the body ended without `break`. The result of
`fgets` is not tested by the program. -/
def server_send_body (connect_fd : Int) (stdin : List Nat) (ret : Int) :
    List Event × List Nat × Bool :=
  let g := fgets (memset BUF_SIZE 0) BUF_SIZE stdin
  if strncmp g.2.1 exitLit 4 = 0 then
    ([.printf "请输入要发送的字符串(输入exit退出服务器程序):", .fgets g.1, .close connect_fd,
      .printf "服务器端关闭连接\n"], g.2.2, false)
  else if ret < 0 then
    ([.printf "请输入要发送的字符串(输入exit退出服务器程序):", .fgets g.1,
      .send connect_fd (cString g.2.1) ret, .perror "发送错误:"], g.2.2, false)
  else
    ([.printf "请输入要发送的字符串(输入exit退出服务器程序):", .fgets g.1,
      .send connect_fd (cString g.2.1) ret], g.2.2, true)

/-- The send loop of `main` in `tcp_server.c`, over the values of `stop` and
`client_live_flag` at the head of each iteration and the value `send` returns
in it. -/
def server_send_loop (connect_fd : Int) : List Nat → List (Bool × Int × Int) → List Event
  | _, [] => []
  | stdin, (stop, flag, ret) :: rest =>
    if stop then []
    else if flag = 0 then []
    else if (server_send_body connect_fd stdin ret).2.2 then
      (server_send_body connect_fd stdin ret).1 ++
        server_send_loop connect_fd (server_send_body connect_fd stdin ret).2.1 rest
    else (server_send_body connect_fd stdin ret).1

/-- Which descriptors `select` in `main` of `tcp_server.c` reports readable.
It has no timeout, so it reports at least one. -/
inductive Ready where
  | stdinOnly
  | listenerOnly
  | both
  deriving DecidableEq

/-- The outcome of `select`: descriptors are readable, or it failed, with
`errno == EINTR` or with another error. -/
inductive SelectResult where
  | ready (r : Ready)
  | failed (eintr : Bool)
  deriving DecidableEq

/-- The outcome of `accept`: a new descriptor, or a failure, with
`errno == EINTR` or with another error. -/
inductive AcceptResult where
  | connection (fd : Nat)
  | failed (eintr : Bool)
  deriving DecidableEq

/-- Where `main` of `tcp_server.c` is waiting. -/
inductive MainPc where
  /-- In `select` of the acceptor loop. -/
  | inSelect
  /-- In `fgets(command, ...)` of the acceptor loop. -/
  | inCommandFgets
  /-- In `accept`. -/
  | inAccept
  /-- In `fgets(buffer, ...)` of the send loop. -/
  | inSendFgets
  /-- Behind the acceptor loop: `main` has returned. -/
  | returned
  deriving DecidableEq

/-- Where a `ReceivedFromClient` thread is. -/
inductive ReceiverPc where
  /-- About to test `while (!stop)`. -/
  | atTest
  /-- In `read`. -/
  | inRead
  /-- Behind `pthread_exit`. -/
  | exited
  deriving DecidableEq

/-- One `ReceivedFromClient` thread: its `sock_fd`, its buffer, where it is. -/
structure Receiver where
  fd : Int
  buf : List Nat
  pc : ReceiverPc
  deriving DecidableEq

/-- The state of the `tcp_server.c` process. -/
structure Server where
  stop : Bool
  client_live_flag : Int
  tcp_socket : Int
  connect_fd : Int
  stdin : List Nat
  pc : MainPc
  receivers : List Receiver
  trace : List Event
  deriving DecidableEq

/-- What the environment does next to the `tcp_server.c` process. -/
inductive Action where
  /-- SIGINT is delivered: `handle_sigint` runs. -/
  | sigint
  /-- The call `select` in the acceptor loop returns. -/
  | selectReturns (r : SelectResult)
  /-- The call `fgets(command, ...)` returns; `junk` is what the array
  `command`, which is not set before, held. -/
  | commandTyped (junk : List Nat)
  /-- The call `accept` returns; the two flags say whether `malloc` and
  `pthread_create` behind it succeed. -/
  | acceptReturns (r : AcceptResult) (mallocOk createOk : Bool)
  /-- The call `fgets(buffer, ...)` of the send loop returns; `sendRet` is
  what `send` behind it returns. -/
  | lineTyped (sendRet : Int)
  /-- Receiver thread `k` tests its loop condition. -/
  | receiverTest (k : Nat)
  /-- The call `read` of receiver thread `k` returns. -/
  | readReturns (k : Nat) (inc : Incoming)
  deriving DecidableEq

/-- Leaving the acceptor loop: `close(tcp_socket)`, the last `printf`, `return 0`. -/
def Server.leave (s : Server) : Server :=
  { s with pc := .returned,
           trace := s.trace ++ [.close s.tcp_socket, .printf "服务器程序结束\n"] }

/-- The test `while (!stop)` of the acceptor loop and what follows up to `select`. -/
def Server.loopTest (s : Server) : Server :=
  if s.stop then s.leave
  else
    { s with pc := .inSelect,
             trace := s.trace ++ [.printf "从队列出取出一个请求或等待新的客户端连接\n"] }

/-- The head of the send loop: `while (!stop)` and
`if (client_live_flag == 0) break;`. Leaving the send loop leads to the test
of the acceptor loop. -/
def Server.sendTest (s : Server) : Server :=
  if s.stop then s.loopTest
  else if s.client_live_flag = 0 then s.loopTest
  else { s with pc := .inSendFgets }

/-- The `tcp_server.c` process once `listen` succeeded. -/
def Server.start (tcp_socket : Int) (stdin : List Nat) : Server :=
  Server.loopTest
    { stop := false, client_live_flag := -1, tcp_socket := tcp_socket, connect_fd := 0,
      stdin := stdin, pc := .inSelect, receivers := [],
      trace := [.printf "服务器已经运行, 开始监听中...\n"] }

/-- One step of the `tcp_server.c` process: SIGINT is handled, or one thread
runs from the return of the call it waits in (`select`, `fgets`, `accept`,
`read`) to the next call it waits in; `send`, `malloc` and `pthread_create`
return at once with the result given. An action that does not fit where its
thread is changes nothing. A failed `select` leaves the descriptor set as
`FD_SET` made it: listener and standard input marked. -/
def Server.step (beyond : List Nat) (s : Server) : Action → Server
  | .sigint => { s with stop := true }
  | .selectReturns r =>
    if s.pc ≠ .inSelect then s
    else
      match r with
      | .failed false =>
        Server.leave { s with trace := s.trace ++ [.select (-1), .perror "select 出错"] }
      | .failed true => { s with pc := .inCommandFgets, trace := s.trace ++ [.select (-1)] }
      | .ready .stdinOnly => { s with pc := .inCommandFgets, trace := s.trace ++ [.select 1] }
      | .ready .both => { s with pc := .inCommandFgets, trace := s.trace ++ [.select 2] }
      | .ready .listenerOnly => { s with pc := .inAccept, trace := s.trace ++ [.select 1] }
  | .commandTyped junk =>
    if s.pc ≠ .inCommandFgets then s
    else if strncmp (fgets junk BUF_SIZE s.stdin).2.1 exitLit 4 = 0 then
      Server.leave
        { s with stdin := (fgets junk BUF_SIZE s.stdin).2.2,
                 trace := s.trace ++ [.fgets (fgets junk BUF_SIZE s.stdin).1] }
    else
      Server.loopTest
        { s with stdin := (fgets junk BUF_SIZE s.stdin).2.2,
                 trace := s.trace ++ [.fgets (fgets junk BUF_SIZE s.stdin).1] }
  | .acceptReturns r mallocOk createOk =>
    if s.pc ≠ .inAccept then s
    else
      match r with
      | .failed true =>
        Server.loopTest { s with connect_fd := -1, trace := s.trace ++ [.accept (-1)] }
      | .failed false =>
        Server.loopTest
          { s with connect_fd := -1,
                   trace := s.trace ++ [.accept (-1), .perror "接受连接失败, 队列异常"] }
      | .connection fd =>
        if mallocOk = false then
          Server.loopTest
            { s with connect_fd := fd, client_live_flag := 1,
                     trace := s.trace ++ [.accept fd, .live 1,
                       .printf "已经从队列出取出一个请求, 连接成功\n",
                       .printf "线程专属 客户端信息结构体 内存分配失败\n", .close fd] }
        else if createOk = false then
          Server.loopTest
            { s with connect_fd := fd, client_live_flag := 1,
                     trace := s.trace ++ [.accept fd, .live 1,
                       .printf "已经从队列出取出一个请求, 连接成功\n",
                       .printf "创建接收线程错误, errno:%d, %s\n", .close fd] }
        else
          Server.sendTest
            { s with connect_fd := fd, client_live_flag := 1,
                     receivers := s.receivers ++ [⟨fd, memset BUF_SIZE 0, .atTest⟩],
                     trace := s.trace ++ [.accept fd, .live 1,
                       .printf "已经从队列出取出一个请求, 连接成功\n", .spawn fd] }
  | .lineTyped ret =>
    if s.pc ≠ .inSendFgets then s
    else if (server_send_body s.connect_fd s.stdin ret).2.2 then
      Server.sendTest
        { s with stdin := (server_send_body s.connect_fd s.stdin ret).2.1,
                 trace := s.trace ++ (server_send_body s.connect_fd s.stdin ret).1 }
    else
      Server.loopTest
        { s with stdin := (server_send_body s.connect_fd s.stdin ret).2.1,
                 trace := s.trace ++ (server_send_body s.connect_fd s.stdin ret).1 }
  | .receiverTest k =>
    match s.receivers.get? k with
    | none => s
    | some r =>
      if r.pc ≠ .atTest then s
      else if s.stop then
        { s with receivers := s.receivers.set k { r with pc := .exited },
                 client_live_flag := 0,
                 trace := s.trace ++ ReceivedFromClient_end r.fd }
      else { s with receivers := s.receivers.set k { r with pc := .inRead } }
  | .readReturns k inc =>
    match s.receivers.get? k with
    | none => s
    | some r =>
      if r.pc ≠ .inRead then s
      else if (ReceivedFromClient_body r.fd beyond r.buf inc).2.2 then
        { s with receivers := s.receivers.set k
                   { r with buf := (ReceivedFromClient_body r.fd beyond r.buf inc).2.1,
                            pc := .atTest },
                 trace := s.trace ++ (ReceivedFromClient_body r.fd beyond r.buf inc).1 }
      else
        { s with receivers := s.receivers.set k
                   { r with buf := (ReceivedFromClient_body r.fd beyond r.buf inc).2.1,
                            pc := .exited },
                 client_live_flag := 0,
                 trace := s.trace ++ (ReceivedFromClient_body r.fd beyond r.buf inc).1 ++
                   ReceivedFromClient_end r.fd }

/-- The `tcp_server.c` process under a schedule. -/
def Server.run (beyond : List Nat) (s : Server) (acts : List Action) : Server :=
  acts.foldl (Server.step beyond) s

/-- While at most one receive thread has been created: with no thread yet
`client_live_flag` is not 0; with one, the flag is 0 only when that thread is
behind `pthread_exit`, and then the thread has closed its descriptor. -/
def Server.flagSound (s : Server) : Prop :=
  match s.receivers with
  | [] => s.client_live_flag ≠ 0
  | [r] =>
    (s.client_live_flag = 0 → r.pc = .exited) ∧ (r.pc = .exited → Event.close r.fd ∈ s.trace)
  | _ :: _ :: _ => True

instance Server.flagSound.decidable (s : Server) : Decidable s.flagSound := by
  unfold Server.flagSound; split <;> infer_instance

/-! ## tcp_server02.c -/

/-- Which descriptors `select` in `IO_Client` reports readable. It has no
timeout, so it reports at least one. -/
inductive Ready02 where
  | socketOnly
  | stdinOnly
  | both
  deriving DecidableEq

/-- The outcome of `select` in `IO_Client`. -/
inductive SelectResult02 where
  | ready (r : Ready02)
  | failed (eintr : Bool)
  deriving DecidableEq

/-- The value `select` returns. -/
def SelectResult02.ret : SelectResult02 → Int
  | .ready .both => 2
  | .ready _ => 1
  | .failed _ => -1

/-- The test `FD_ISSET(client_args->sock_fd, &read_fd)` after `select`. A
failed `select` leaves the set as `FD_SET` made it. -/
def SelectResult02.socketMarked : SelectResult02 → Bool
  | .ready .stdinOnly => false
  | _ => true

/-- The test `FD_ISSET(STDIN_FILENO, &read_fd)` after `select`. -/
def SelectResult02.stdinMarked : SelectResult02 → Bool
  | .ready .socketOnly => false
  | _ => true

/-- What the environment gives one iteration of the loop of `IO_Client`: the
outcome of `select`, what `recv` gets if it is called, what `send` returns if
it is called. -/
structure Turn where
  sel : SelectResult02
  inc : Incoming
  sendRet : Int
  deriving DecidableEq

/-- The branch `if (FD_ISSET(client_args->sock_fd, &read_fd))` of `IO_Client`:
the operations, `Buffer` afterwards and whether the branch ended without
`break`. -/
def IO_Client_socket (fd : Int) (beyond buf : List Nat) (inc : Incoming) :
    List Event × List Nat × Bool :=
  let r := recv buf BUF_SIZE inc
  if r.1 > 0 then
    ([.recv fd r.1, .display "recv from [%s], data is = %s\n" (cString (r.2 ++ beyond))],
      r.2, true)
  else if r.1 = 0 then ([.recv fd r.1, .printf "客户端断开连接\n"], r.2, false)
  else ([.recv fd r.1, .perror "读取客户端发送的数据错误"], r.2, false)

/-- The branch `if (FD_ISSET(STDIN_FILENO, &read_fd))` of `IO_Client`: the
operations, the rest of standard input and whether the branch ended without
`break`. -/
def IO_Client_stdin (fd : Int) (beyond buf stdin : List Nat) (ret : Int) :
    List Event × List Nat × Bool :=
  let g := fgets buf BUF_SIZE stdin
  if strlen (g.2.1 ++ beyond) = 1 ∧ g.2.1.getD (strlen (g.2.1 ++ beyond) - 1) NUL = NEWLINE then
    ([.printf "请输入要发送的消息：", .fgets g.1], g.2.2, true)
  else if strncmp g.2.1 exitLit 4 = 0 then
    ([.printf "请输入要发送的消息：", .fgets g.1, .printf "服务器端关闭与[%s]的连接\n"],
      g.2.2, false)
  else if ret < 0 then
    ([.printf "请输入要发送的消息：", .fgets g.1, .send fd (cString (g.2.1 ++ beyond)) ret,
      .perror "发送错误:"], g.2.2, false)
  else
    ([.printf "请输入要发送的消息：", .fgets g.1, .send fd (cString (g.2.1 ++ beyond)) ret],
      g.2.2, true)

/-- One pass through the body of `while (!stop)` in `IO_Client`: the
operations, the rest of standard input and whether the body ended without
`break`. -/
def IO_Client_body (fd : Int) (beyond stdin : List Nat) (t : Turn) :
    List Event × List Nat × Bool :=
  if t.sel = .failed false then
    ([.select (-1), .perror "select 监听错误"], stdin, false)
  else if t.sel.socketMarked then
    if (IO_Client_socket fd beyond (memset BUF_SIZE 0) t.inc).2.2 then
      if t.sel.stdinMarked then
        (.select t.sel.ret :: (IO_Client_socket fd beyond (memset BUF_SIZE 0) t.inc).1 ++
          (IO_Client_stdin fd beyond (IO_Client_socket fd beyond (memset BUF_SIZE 0) t.inc).2.1
            stdin t.sendRet).1,
         (IO_Client_stdin fd beyond (IO_Client_socket fd beyond (memset BUF_SIZE 0) t.inc).2.1
            stdin t.sendRet).2.1,
         (IO_Client_stdin fd beyond (IO_Client_socket fd beyond (memset BUF_SIZE 0) t.inc).2.1
            stdin t.sendRet).2.2)
      else
        (.select t.sel.ret :: (IO_Client_socket fd beyond (memset BUF_SIZE 0) t.inc).1, stdin, true)
    else
      (.select t.sel.ret :: (IO_Client_socket fd beyond (memset BUF_SIZE 0) t.inc).1, stdin, false)
  else
    (.select t.sel.ret :: (IO_Client_stdin fd beyond (memset BUF_SIZE 0) stdin t.sendRet).1,
     (IO_Client_stdin fd beyond (memset BUF_SIZE 0) stdin t.sendRet).2.1,
     (IO_Client_stdin fd beyond (memset BUF_SIZE 0) stdin t.sendRet).2.2)

/-- What `IO_Client` does after its loop: `free(client_args)`, then
`close(client_args->sock_fd)`, then `pthread_exit`. The block is freed before
`sock_fd` is read from it, so `close` gets `stale`, what the freed block holds
in that place by then; it need not be the descriptor the thread served. -/
def IO_Client_end (stale : Int) : List Event := [.close stale]

/-- The thread function `IO_Client` serving descriptor `fd`, over the value of
`stop` at each test of the loop condition and what the environment gives the
iteration; `stale` is what the teardown reads in place of `sock_fd`. -/
def IO_Client (fd stale : Int) (beyond : List Nat) :
    List Nat → List (Bool × Turn) → List Event
  | _, [] => []
  | stdin, (stop, t) :: rest =>
    if stop then IO_Client_end stale
    else if (IO_Client_body fd beyond stdin t).2.2 then
      (IO_Client_body fd beyond stdin t).1 ++
        IO_Client fd stale beyond (IO_Client_body fd beyond stdin t).2.1 rest
    else (IO_Client_body fd beyond stdin t).1 ++ IO_Client_end stale

/-- Where `main` of `tcp_server02.c` is. -/
inductive Main02Pc where
  /-- In `accept`. -/
  | inAccept
  /-- Behind the acceptor loop: `main` has returned. -/
  | returned
  deriving DecidableEq

/-- The state of `main` of `tcp_server02.c`: the flag `stop`, the listening
socket, what the operator has typed and nobody has read, where `main` is, the
descriptors handed to `IO_Client` threads and the operations so far. -/
structure Server02 where
  stop : Bool
  tcp_socket : Int
  stdin : List Nat
  pc : Main02Pc
  sessions : List Int
  trace : List Event
  deriving DecidableEq

/-- What the environment does next to `main` of `tcp_server02.c`. -/
inductive Action02 where
  /-- SIGINT is delivered: `handle_sigint` runs. -/
  | sigint
  /-- The operator types more bytes on the terminal. -/
  | typed (bytes : List Nat)
  /-- The call `accept` returns; the two flags say whether `malloc` and
  `pthread_create` behind it succeed. -/
  | acceptReturns (r : AcceptResult) (mallocOk createOk : Bool)
  deriving DecidableEq

/-- The test `while (!stop)` of the acceptor loop and what follows up to
`accept`, or what follows the loop. -/
def Server02.loopTest (s : Server02) : Server02 :=
  if s.stop then
    { s with pc := .returned,
             trace := s.trace ++ [.close s.tcp_socket, .printf "服务器程序结束\n"] }
  else { s with pc := .inAccept, trace := s.trace ++ [.printf "等待新的客户端连接\n"] }

/-- The `tcp_server02.c` process once `listen` succeeded. -/
def Server02.start (tcp_socket : Int) (stdin : List Nat) : Server02 :=
  Server02.loopTest
    { stop := false, tcp_socket := tcp_socket, stdin := stdin, pc := .inAccept, sessions := [],
      trace := [.printf "服务器开始运行, 监听的端口号为：%d\n"] }

/-- One step of `main` of `tcp_server02.c`. The loop reads nothing from
standard input. -/
def Server02.step (s : Server02) : Action02 → Server02
  | .sigint => { s with stop := true }
  | .typed bytes => { s with stdin := s.stdin ++ bytes }
  | .acceptReturns r mallocOk createOk =>
    if s.pc ≠ .inAccept then s
    else
      match r with
      | .failed true => Server02.loopTest { s with trace := s.trace ++ [.accept (-1)] }
      | .failed false =>
        Server02.loopTest
          { s with trace := s.trace ++ [.accept (-1), .perror "接受连接失败, 队列异常"] }
      | .connection fd =>
        if mallocOk = false then
          Server02.loopTest
            { s with trace := s.trace ++ [.accept fd,
                       .printf "已经从队列出取出一个请求, 连接成功\n",
                       .printf "线程专属 客户端信息结构体 内存分配失败\n", .close fd] }
        else if createOk = false then
          Server02.loopTest
            { s with trace := s.trace ++ [.accept fd,
                       .printf "已经从队列出取出一个请求, 连接成功\n",
                       .printf "创建接收线程错误, errno:%d, %s\n", .close fd] }
        else
          Server02.loopTest
            { s with sessions := s.sessions ++ [(fd : Int)],
                     trace := s.trace ++ [.accept fd,
                       .printf "已经从队列出取出一个请求, 连接成功\n", .spawn fd] }

/-- The acceptor of `tcp_server02.c` under a schedule. -/
def Server02.run (s : Server02) (acts : List Action02) : Server02 :=
  acts.foldl Server02.step s

/-! ## Typed lines -/

/-- A typed line that one `fgets` call delivers whole: it ends in a line feed,
holds no other line feed, and with its line feed is shorter than the buffer. -/
def shortLine (l : List Nat) : Prop :=
  l = l.dropLast ++ [NEWLINE] ∧ NEWLINE ∉ l.dropLast ∧ l.length < BUF_SIZE

instance shortLine.decidable (l : List Nat) : Decidable (shortLine l) := by
  unfold shortLine; infer_instance

/-- A line of text as the operator types it: it ends in a line feed, holds no
other line feed and no zero byte, and with its line feed is shorter than the
buffer. -/
def typedLine (l : List Nat) : Prop :=
  l = l.dropLast ++ [NEWLINE] ∧ NEWLINE ∉ l.dropLast ∧ NUL ∉ l ∧ l.length < BUF_SIZE

instance typedLine.decidable (l : List Nat) : Decidable (typedLine l) := by
  unfold typedLine; infer_instance

/-! ## Facts about buffers and C strings -/

theorem strncmp_exit_iff (b : List Nat) : strncmp b exitLit 4 = 0 ↔ b.take 4 = exitLit := by
  rcases b with _ | ⟨a, _ | ⟨b, _ | ⟨c, _ | ⟨d, t⟩⟩⟩⟩ <;>
    simp [strncmp, exitLit, NUL, sub_eq_zero]
  all_goals (split_ifs <;> (first | omega | simp))

theorem take_four_store (buf line : List Nat) :
    (store buf (line ++ [NUL])).take 4 = exitLit ↔ line.take 4 = exitLit := by
  rcases line with _ | ⟨a, _ | ⟨b, _ | ⟨c, _ | ⟨d, t⟩⟩⟩⟩ <;>
    simp [store, exitLit, NUL, List.take_append_eq_append_take]

theorem cString_append_nul (l r : List Nat) : cString (l ++ NUL :: r) = cString l := by
  induction l with
  | nil => simp [cString]
  | cons a l ih => simp [cString, ih]

theorem cString_of_no_nul (l : List Nat) (h : NUL ∉ l) : cString l = l := by
  induction l with
  | nil => rfl
  | cons a l ih =>
    simp only [List.mem_cons, not_or] at h
    simp [cString, ih h.2, Ne.symm h.1]

theorem strlen_eq_length_cString (l : List Nat) : strlen l = (cString l).length := by
  induction l with
  | nil => rfl
  | cons a l ih => by_cases h : a = NUL <;> simp [strlen, cString, h, ih]

theorem cString_store (buf line : List Nat) :
    cString (store buf (line ++ [NUL])) = cString line := by
  have : store buf (line ++ [NUL]) = line ++ NUL :: buf.drop (line ++ [NUL]).length := by
    simp [store]
  rw [this, cString_append_nul]

theorem cString_take_four (l : List Nat) (h : l.take 4 = exitLit) :
    (cString l).take 4 = exitLit := by
  rcases l with _ | ⟨a, _ | ⟨b, _ | ⟨c, _ | ⟨d, t⟩⟩⟩⟩ <;>
    simp [exitLit] at h
  obtain ⟨rfl, rfl, rfl, rfl⟩ := h
  simp [cString, NUL, exitLit]

theorem fgets_cons (buf : List Nat) (size : Nat) (b : Nat) (s : List Nat) :
    fgets buf size (b :: s) =
      (true, store buf ((readLine (size - 1) (b :: s)).1 ++ [NUL]), (readLine (size - 1) (b :: s)).2) := rfl

theorem fgets_of_ne_nil (buf : List Nat) (size : Nat) (stdin : List Nat) (h : stdin ≠ []) :
    fgets buf size stdin =
      (true, store buf ((readLine (size - 1) stdin).1 ++ [NUL]), (readLine (size - 1) stdin).2) := by
  cases stdin with
  | nil => exact absurd rfl h
  | cons b s => rfl

theorem cString_store_append (buf line beyond : List Nat) :
    cString (store buf (line ++ [NUL]) ++ beyond) = cString line := by
  have : store buf (line ++ [NUL]) ++ beyond =
      line ++ NUL :: (buf.drop (line ++ [NUL]).length ++ beyond) := by
    simp [store]
  rw [this, cString_append_nul]

theorem four_le_length_cString (l : List Nat) (h : l.take 4 = exitLit) :
    4 ≤ (cString l).length := by
  have h4 := congrArg List.length (cString_take_four l h)
  simp [exitLit] at h4
  omega

/-- the buffer test of the three send paths, on the buffer `fgets` filled -/
theorem exit_test_after_fgets (buf line : List Nat) :
    strncmp (store buf (line ++ [NUL])) exitLit 4 = 0 ↔ line.take 4 = exitLit := by
  rw [strncmp_exit_iff, take_four_store]


theorem client_send_body_rest (fd : Int) (stdin : List Nat) (ret : Int) (hin : stdin ≠ []) :
    (client_send_body fd stdin ret).2.1 = (readLine (BUF_SIZE - 1) stdin).2 := by
  simp only [client_send_body, fgets_of_ne_nil _ _ _ hin]
  split_ifs <;> simp_all

theorem client_send_body_go (fd : Int) (stdin : List Nat) (ret : Int) (hin : stdin ≠ []) :
    (client_send_body fd stdin ret).2.2 = true ↔
      (0 ≤ ret ∧ (readLine (BUF_SIZE - 1) stdin).1.take 4 ≠ exitLit) := by
  simp only [client_send_body, fgets_of_ne_nil _ _ _ hin, exit_test_after_fgets]
  split_ifs <;> simp_all

theorem server_send_body_rest (fd : Int) (stdin : List Nat) (ret : Int) (hin : stdin ≠ []) :
    (server_send_body fd stdin ret).2.1 = (readLine (BUF_SIZE - 1) stdin).2 := by
  simp only [server_send_body, fgets_of_ne_nil _ _ _ hin]
  split_ifs <;> simp_all

theorem server_send_body_go (fd : Int) (stdin : List Nat) (ret : Int) (hin : stdin ≠ []) :
    (server_send_body fd stdin ret).2.2 = true ↔
      (0 ≤ ret ∧ (readLine (BUF_SIZE - 1) stdin).1.take 4 ≠ exitLit) := by
  simp only [server_send_body, fgets_of_ne_nil _ _ _ hin, exit_test_after_fgets]
  split_ifs <;> simp_all

theorem IO_Client_stdin_rest (fd : Int) (beyond buf stdin : List Nat) (ret : Int)
    (hin : stdin ≠ []) :
    (IO_Client_stdin fd beyond buf stdin ret).2.1 = (readLine (BUF_SIZE - 1) stdin).2 := by
  simp only [IO_Client_stdin, fgets_of_ne_nil _ _ _ hin]
  split_ifs <;> simp_all

theorem IO_Client_stdin_go (fd : Int) (beyond buf stdin : List Nat) (ret : Int)
    (hin : stdin ≠ []) :
    ((readLine (BUF_SIZE - 1) stdin).1.take 4 = exitLit →
      (IO_Client_stdin fd beyond buf stdin ret).2.2 = false) ∧
    ((readLine (BUF_SIZE - 1) stdin).1.take 4 ≠ exitLit → 0 ≤ ret →
      (IO_Client_stdin fd beyond buf stdin ret).2.2 = true) := by
  refine ⟨fun he => ?_, fun he hr => ?_⟩
  · have h4 := four_le_length_cString _ he
    have hlen : strlen (store buf ((readLine (BUF_SIZE - 1) stdin).1 ++ [NUL]) ++ beyond) ≠ 1 := by
      rw [strlen_eq_length_cString, cString_store_append]; omega
    simp [IO_Client_stdin, fgets_of_ne_nil _ _ _ hin, exit_test_after_fgets, he, hlen]
  · have hr' : ¬ ret < 0 := by omega
    simp only [IO_Client_stdin, fgets_of_ne_nil _ _ _ hin, exit_test_after_fgets]
    split_ifs <;> simp_all

theorem IO_Client_body_stdin_branch (fd : Int) (beyond stdin : List Nat) (t : Turn)
    (hsel : t.sel ≠ .failed false) (hstd : t.sel.stdinMarked = true)
    (hsock : t.sel.socketMarked = true → 0 < (recv (memset BUF_SIZE 0) BUF_SIZE t.inc).1) :
    ∃ buf, (IO_Client_body fd beyond stdin t).2 =
      (IO_Client_stdin fd beyond buf stdin t.sendRet).2 := by
  by_cases hm : t.sel.socketMarked = true
  · have hgo : (IO_Client_socket fd beyond (memset BUF_SIZE 0) t.inc).2.2 = true := by
      simp [IO_Client_socket, hsock hm]
    exact ⟨(IO_Client_socket fd beyond (memset BUF_SIZE 0) t.inc).2.1,
      by simp [IO_Client_body, hsel, hm, hstd, hgo]⟩
  · exact ⟨memset BUF_SIZE 0, by simp [IO_Client_body, hsel, hm, hstd]⟩

theorem sentPayloads_append (a b : List Event) :
    sentPayloads (a ++ b) = sentPayloads a ++ sentPayloads b := by
  induction a with
  | nil => rfl
  | cons e a ih => cases e <;> simp [sentPayloads, ih]

theorem readLine_body (body s : List Nat) (room : Nat) (hb : NEWLINE ∉ body)
    (hroom : body.length < room) :
    readLine room (body ++ NEWLINE :: s) = (body ++ [NEWLINE], s) := by
  induction body generalizing room with
  | nil =>
    obtain ⟨r, rfl⟩ : ∃ r, room = r + 1 := ⟨room - 1, by simp at hroom; omega⟩
    simp [readLine]
  | cons a body ih =>
    obtain ⟨r, rfl⟩ : ∃ r, room = r + 1 := ⟨room - 1, by simp at hroom; omega⟩
    simp only [List.mem_cons, not_or] at hb
    have hr : body.length < r := by simp at hroom; omega
    simp [readLine, Ne.symm hb.1, ih r hb.2 hr]

theorem typedLine_cases (l : List Nat) (h : typedLine l) :
    ∃ body, l = body ++ [NEWLINE] ∧ NEWLINE ∉ body ∧ NUL ∉ body ∧ body.length + 1 < BUF_SIZE := by
  obtain ⟨h1, h2, h3, h4⟩ := h
  refine ⟨l.dropLast, h1, h2, ?_, ?_⟩
  · intro hmem
    exact h3 (List.dropLast_subset l hmem)
  · have := congrArg List.length h1
    simp only [List.length_append, List.length_singleton] at this
    omega

theorem readLine_typedLine (l s : List Nat) (h : typedLine l) :
    readLine (BUF_SIZE - 1) (l ++ s) = (l, s) := by
  obtain ⟨body, rfl, h2, _, h4⟩ := typedLine_cases l h
  have := readLine_body body s (BUF_SIZE - 1) h2 (by omega)
  simpa using this

theorem typedLine_ne_nil (l : List Nat) (h : typedLine l) : l ≠ [] := by
  obtain ⟨body, rfl, _⟩ := typedLine_cases l h
  simp

theorem client_send_body_sent (fd : Int) (stdin : List Nat) (ret : Int) (hin : stdin ≠ []) :
    sentPayloads (client_send_body fd stdin ret).1 = [cString (readLine (BUF_SIZE - 1) stdin).1] := by
  simp only [client_send_body, fgets_of_ne_nil _ _ _ hin, cString_store]
  split_ifs <;> simp_all [sentPayloads]

theorem server_send_body_sent (fd : Int) (stdin : List Nat) (ret : Int) (hin : stdin ≠ [])
    (he : (readLine (BUF_SIZE - 1) stdin).1.take 4 ≠ exitLit) :
    sentPayloads (server_send_body fd stdin ret).1 = [cString (readLine (BUF_SIZE - 1) stdin).1] := by
  simp only [server_send_body, fgets_of_ne_nil _ _ _ hin, cString_store, exit_test_after_fgets]
  split_ifs <;> simp_all [sentPayloads]

theorem client_send_loop_sends_lines (fd : Int) (lines : List (List Nat)) (more : List Nat)
    (hl : ∀ l ∈ lines, typedLine l ∧ l.take 4 ≠ exitLit) :
    ∀ rets : List Int, rets.length = lines.length → (∀ r ∈ rets, 0 ≤ r) →
      sentPayloads (client_send_loop fd (lines.flatten ++ more) rets) = lines := by
  induction lines with
  | nil =>
    intro rets hlen _
    have : rets = [] := List.length_eq_zero.mp (by simpa using hlen)
    subst this
    simp [client_send_loop, sentPayloads]
  | cons l ls ih =>
    intro rets hlen hr
    obtain ⟨r, rs, rfl⟩ : ∃ r rs, rets = r :: rs := by
      cases rets with
      | nil => simp at hlen
      | cons r rs => exact ⟨r, rs, rfl⟩
    have hline := (hl l (by simp)).1
    have hne := (hl l (by simp)).2
    have hin : (l :: ls).flatten ++ more ≠ [] := by
      have := typedLine_ne_nil l hline
      cases l with
      | nil => exact absurd rfl this
      | cons a l => simp
    have hread : readLine (BUF_SIZE - 1) ((l :: ls).flatten ++ more) = (l, ls.flatten ++ more) := by
      have := readLine_typedLine l (ls.flatten ++ more) hline
      simpa [List.append_assoc] using this
    have hgo := (client_send_body_go fd _ r hin).2 ⟨hr r (by simp), by rw [hread]; exact hne⟩
    have hrest := client_send_body_rest fd _ r hin
    have hsent := client_send_body_sent fd _ r hin
    rw [hread] at hrest hsent
    have hnul : NUL ∉ l := hline.2.2.1
    rw [client_send_loop]
    simp only [hgo, if_true, sentPayloads_append, hsent, hrest, cString_of_no_nul l hnul]
    rw [ih (fun x hx => hl x (List.mem_cons_of_mem _ hx)) rs (by simpa using hlen)
      (fun x hx => hr x (List.mem_cons_of_mem _ hx))]
    rfl

theorem server_send_loop_sends_lines (fd : Int) (lines : List (List Nat)) (more : List Nat)
    (hl : ∀ l ∈ lines, typedLine l ∧ l.take 4 ≠ exitLit) :
    ∀ turns : List (Bool × Int × Int), turns.length = lines.length →
      (∀ t ∈ turns, t.1 = false ∧ t.2.1 ≠ 0 ∧ 0 ≤ t.2.2) →
      sentPayloads (server_send_loop fd (lines.flatten ++ more) turns) = lines := by
  induction lines with
  | nil =>
    intro turns hlen _
    have : turns = [] := List.length_eq_zero.mp (by simpa using hlen)
    subst this
    simp [server_send_loop, sentPayloads]
  | cons l ls ih =>
    intro turns hlen hr
    obtain ⟨⟨stop, flag, r⟩, rs, rfl⟩ : ∃ t rs, turns = t :: rs := by
      cases turns with
      | nil => simp at hlen
      | cons r rs => exact ⟨r, rs, rfl⟩
    obtain ⟨hstop, hflag, hret⟩ := hr (stop, flag, r) (by simp)
    simp only at hstop hflag hret
    subst hstop
    have hline := (hl l (by simp)).1
    have hne := (hl l (by simp)).2
    have hin : (l :: ls).flatten ++ more ≠ [] := by
      have := typedLine_ne_nil l hline
      cases l with
      | nil => exact absurd rfl this
      | cons a l => simp
    have hread : readLine (BUF_SIZE - 1) ((l :: ls).flatten ++ more) = (l, ls.flatten ++ more) := by
      have := readLine_typedLine l (ls.flatten ++ more) hline
      simpa [List.append_assoc] using this
    have hgo := (server_send_body_go fd _ r hin).2 ⟨hret, by rw [hread]; exact hne⟩
    have hrest := server_send_body_rest fd _ r hin
    have hsent := server_send_body_sent fd _ r hin (by rw [hread]; exact hne)
    rw [hread] at hrest hsent
    have hnul : NUL ∉ l := hline.2.2.1
    rw [server_send_loop]
    simp only [hgo, hflag, if_true, if_false, sentPayloads_append, hsent, hrest,
      cString_of_no_nul l hnul, Bool.false_eq_true]
    rw [ih (fun x hx => hl x (List.mem_cons_of_mem _ hx)) rs (by simpa using hlen)
      (fun x hx => hr x (List.mem_cons_of_mem _ hx))]
    rfl

theorem IO_Client_stdin_typed (fd : Int) (beyond buf l s : List Nat) (ret : Int)
    (hline : typedLine l) (hne : l.take 4 ≠ exitLit) (hret : 0 ≤ ret) :
    (IO_Client_stdin fd beyond buf (l ++ s) ret).2 = (s, true) ∧
    sentPayloads (IO_Client_stdin fd beyond buf (l ++ s) ret).1 =
      [l].filter (fun x => decide (x ≠ [NEWLINE])) := by
  have hin : l ++ s ≠ [] := by
    have := typedLine_ne_nil l hline
    cases l with
    | nil => exact absurd rfl this
    | cons a l => simp
  have hread := readLine_typedLine l s hline
  have hnul : NUL ∉ l := hline.2.2.1
  have hr' : ¬ ret < 0 := by omega
  have hlen : strlen (store buf (l ++ [NUL]) ++ beyond) = l.length := by
    rw [strlen_eq_length_cString, cString_store_append, cString_of_no_nul l hnul]
  have hcs : cString (store buf (l ++ [NUL]) ++ beyond) = l := by
    rw [cString_store_append, cString_of_no_nul l hnul]
  obtain ⟨body, hbody, -, -, -⟩ := typedLine_cases l hline
  by_cases h1 : l = [NEWLINE]
  · have hl1 : l.length = 1 := by rw [h1]; rfl
    have hget : (store buf (l ++ [NUL]))[0]?.getD NUL = NEWLINE := by rw [h1]; simp [store]
    have hf : [l].filter (fun x => decide (x ≠ [NEWLINE])) = [] := by simp [h1]
    rw [hf]
    simp [IO_Client_stdin, fgets_of_ne_nil _ _ _ hin, hread, hlen, hl1, hget, sentPayloads]
  · have hl1 : l.length ≠ 1 := by
      intro hl1
      apply h1
      cases body with
      | nil => simpa using hbody
      | cons a body => rw [hbody] at hl1; simp at hl1
    simp [IO_Client_stdin, fgets_of_ne_nil _ _ _ hin, hread, hlen, hcs, hl1,
      exit_test_after_fgets, hne, hr', sentPayloads, h1]

theorem sentPayloads_IO_Client_socket (fd : Int) (beyond buf : List Nat) (inc : Incoming) :
    sentPayloads (IO_Client_socket fd beyond buf inc).1 = [] := by
  simp only [IO_Client_socket]
  split_ifs <;> rfl

theorem IO_Client_sends_lines (fd stale : Int) (beyond : List Nat) (more : List Nat) :
    ∀ (turns : List (Bool × Turn)) (lines : List (List Nat)),
      (∀ l ∈ lines, typedLine l ∧ l.take 4 ≠ exitLit) →
      (turns.filter (fun t => t.2.sel.stdinMarked)).length = lines.length →
      (∀ t ∈ turns, t.1 = false ∧ t.2.sel ≠ .failed false ∧
        (t.2.sel.socketMarked = true → 0 < (recv (memset BUF_SIZE 0) BUF_SIZE t.2.inc).1) ∧
        0 ≤ t.2.sendRet) →
      sentPayloads (IO_Client fd stale beyond (lines.flatten ++ more) turns) =
        lines.filter (fun l => decide (l ≠ [NEWLINE])) := by
  intro turns
  induction turns with
  | nil =>
    intro lines _ hlen _
    have : lines = [] := List.length_eq_zero.mp (by simpa using hlen.symm)
    subst this
    simp [IO_Client, sentPayloads]
  | cons t ts ih =>
    intro lines hl hlen ht
    obtain ⟨stop, t⟩ := t
    obtain ⟨hstop, hsel, hsock, hret⟩ := ht (stop, t) (by simp)
    simp only at hstop hsel hsock hret
    subst hstop
    have hts : ∀ x ∈ ts, x.1 = false ∧ x.2.sel ≠ .failed false ∧
        (x.2.sel.socketMarked = true → 0 < (recv (memset BUF_SIZE 0) BUF_SIZE x.2.inc).1) ∧
        0 ≤ x.2.sendRet := fun x hx => ht x (List.mem_cons_of_mem _ hx)
    have hsockgo : t.sel.socketMarked = true →
        (IO_Client_socket fd beyond (memset BUF_SIZE 0) t.inc).2.2 = true := by
      intro hm
      simp [IO_Client_socket, hsock hm]
    by_cases hstd : t.sel.stdinMarked = true
    · obtain ⟨l, ls, rfl⟩ : ∃ l ls, lines = l :: ls := by
        cases lines with
        | nil => simp [hstd] at hlen
        | cons l ls => exact ⟨l, ls, rfl⟩
      have hline := (hl l (by simp)).1
      have hne := (hl l (by simp)).2
      have hflat : (l :: ls).flatten ++ more = l ++ (ls.flatten ++ more) := by simp
      have hlen' : (ts.filter (fun t => t.2.sel.stdinMarked)).length = ls.length := by
        simpa [hstd] using hlen
      have hih := ih ls (fun x hx => hl x (List.mem_cons_of_mem _ hx)) hlen' hts
      rw [hflat, IO_Client]
      by_cases hm : t.sel.socketMarked = true
      · have hgo := hsockgo hm
        have hb := IO_Client_stdin_typed fd beyond
          (IO_Client_socket fd beyond (memset BUF_SIZE 0) t.inc).2.1 l (ls.flatten ++ more)
          t.sendRet hline hne hret
        have hb2 := congrArg Prod.snd hb.1
        have hb1 := congrArg Prod.fst hb.1
        simp only at hb1 hb2
        simp only [IO_Client_body, hsel, hm, hstd, hgo, if_true, if_false, hb1, hb2,
          Bool.false_eq_true, List.cons_append, sentPayloads, sentPayloads_append,
          sentPayloads_IO_Client_socket, hb.2, hih, List.nil_append]
        by_cases h1 : l = [NEWLINE] <;> simp [h1]
      · have hb := IO_Client_stdin_typed fd beyond (memset BUF_SIZE 0) l (ls.flatten ++ more)
          t.sendRet hline hne hret
        have hb2 := congrArg Prod.snd hb.1
        have hb1 := congrArg Prod.fst hb.1
        simp only at hb1 hb2
        simp only [IO_Client_body, hsel, hm, hstd, if_true, if_false, hb1, hb2,
          Bool.false_eq_true, List.cons_append, sentPayloads, sentPayloads_append,
          hb.2, hih, List.nil_append]
        by_cases h1 : l = [NEWLINE] <;> simp [h1]
    · have hlen' : (ts.filter (fun t => t.2.sel.stdinMarked)).length = lines.length := by
        simpa [hstd] using hlen
      have hih := ih lines hl hlen' hts
      have hm : t.sel.socketMarked = true := by
        cases hs : t.sel with
        | ready r => cases r <;> simp_all [SelectResult02.socketMarked, SelectResult02.stdinMarked]
        | failed e => simp_all [SelectResult02.socketMarked, SelectResult02.stdinMarked]
      have hgo := hsockgo hm
      rw [IO_Client]
      simp only [IO_Client_body, hsel, hm, hstd, hgo, if_true, if_false,
        Bool.false_eq_true, List.cons_append, sentPayloads, sentPayloads_append,
        sentPayloads_IO_Client_socket, hih, List.nil_append]

/-! ## Lines shorter than the buffer, input that begins with exit -/

theorem shortLine_cases (l : List Nat) (h : shortLine l) :
    ∃ body, l = body ++ [NEWLINE] ∧ NEWLINE ∉ body ∧ body.length + 1 < BUF_SIZE := by
  obtain ⟨h1, h2, h4⟩ := h
  refine ⟨l.dropLast, h1, h2, ?_⟩
  have := congrArg List.length h1
  simp only [List.length_append, List.length_singleton] at this
  omega

theorem readLine_shortLine (l s : List Nat) (h : shortLine l) :
    readLine (BUF_SIZE - 1) (l ++ s) = (l, s) := by
  obtain ⟨body, rfl, h2, h4⟩ := shortLine_cases l h
  have := readLine_body body s (BUF_SIZE - 1) h2 (by omega)
  simpa using this

theorem shortLine_append_ne_nil (l s : List Nat) (h : shortLine l) : l ++ s ≠ [] := by
  obtain ⟨body, rfl, _⟩ := shortLine_cases l h
  simp

theorem typedLine.shortLine (l : List Nat) (h : typedLine l) : shortLine l :=
  ⟨h.1, h.2.1, h.2.2.2⟩

theorem take_four_readLine (stdin : List Nat) (h : stdin.take 4 = exitLit) :
    (readLine (BUF_SIZE - 1) stdin).1.take 4 = exitLit := by
  rcases stdin with _ | ⟨a, _ | ⟨b, _ | ⟨c, _ | ⟨d, t⟩⟩⟩⟩ <;> simp [exitLit] at h
  obtain ⟨rfl, rfl, rfl, rfl⟩ := h
  have : BUF_SIZE - 1 = 1019 + 1 + 1 + 1 + 1 := by decide
  rw [this]
  simp [readLine, NEWLINE, exitLit]

theorem take_four_append (l more : List Nat) (h : l.take 4 = exitLit) :
    (l ++ more).take 4 = exitLit := by
  rcases l with _ | ⟨a, _ | ⟨b, _ | ⟨c, _ | ⟨d, t⟩⟩⟩⟩ <;> simp [exitLit] at h
  obtain ⟨rfl, rfl, rfl, rfl⟩ := h
  simp [exitLit]

theorem ne_nil_of_take_four (stdin : List Nat) (h : stdin.take 4 = exitLit) : stdin ≠ [] := by
  rintro rfl
  simp [exitLit] at h

theorem IO_Client_stdin_exit (fd : Int) (beyond buf stdin : List Nat) (ret : Int)
    (hin : stdin ≠ []) (hexit : (readLine (BUF_SIZE - 1) stdin).1.take 4 = exitLit) :
    IO_Client_stdin fd beyond buf stdin ret =
      ([Event.printf "请输入要发送的消息：", Event.fgets true,
        Event.printf "服务器端关闭与[%s]的连接\n"], (readLine (BUF_SIZE - 1) stdin).2, false) := by
  have h4 := four_le_length_cString _ hexit
  have hlen : strlen (store buf ((readLine (BUF_SIZE - 1) stdin).1 ++ [NUL]) ++ beyond) ≠ 1 := by
    rw [strlen_eq_length_cString, cString_store_append]; omega
  simp [IO_Client_stdin, fgets_of_ne_nil _ _ _ hin, exit_test_after_fgets, hexit, hlen]

theorem send_loops_after_fgets (fd stale : Int) (beyond stdin : List Nat) (hin : stdin ≠ []) :
    (∀ ret rets,
      ((readLine (BUF_SIZE - 1) stdin).1.take 4 = exitLit →
        client_send_loop fd stdin (ret :: rets) =
          (client_send_body fd stdin ret).1 ++ client_finish fd) ∧
      ((readLine (BUF_SIZE - 1) stdin).1.take 4 ≠ exitLit → 0 ≤ ret →
        client_send_loop fd stdin (ret :: rets) =
          (client_send_body fd stdin ret).1 ++
            client_send_loop fd (readLine (BUF_SIZE - 1) stdin).2 rets)) ∧
    (∀ flag ret more, flag ≠ 0 →
      ((readLine (BUF_SIZE - 1) stdin).1.take 4 = exitLit →
        server_send_loop fd stdin ((false, flag, ret) :: more) =
          (server_send_body fd stdin ret).1) ∧
      ((readLine (BUF_SIZE - 1) stdin).1.take 4 ≠ exitLit → 0 ≤ ret →
        server_send_loop fd stdin ((false, flag, ret) :: more) =
          (server_send_body fd stdin ret).1 ++
            server_send_loop fd (readLine (BUF_SIZE - 1) stdin).2 more)) ∧
    (∀ (t : Turn) more, t.sel ≠ .failed false → t.sel.stdinMarked = true →
      (t.sel.socketMarked = true → 0 < (recv (memset BUF_SIZE 0) BUF_SIZE t.inc).1) →
      ((readLine (BUF_SIZE - 1) stdin).1.take 4 = exitLit →
        IO_Client fd stale beyond stdin ((false, t) :: more) =
          (IO_Client_body fd beyond stdin t).1 ++ IO_Client_end stale) ∧
      ((readLine (BUF_SIZE - 1) stdin).1.take 4 ≠ exitLit → 0 ≤ t.sendRet →
        IO_Client fd stale beyond stdin ((false, t) :: more) =
          (IO_Client_body fd beyond stdin t).1 ++
            IO_Client fd stale beyond (readLine (BUF_SIZE - 1) stdin).2 more)) := by
  refine ⟨?_, ?_, ?_⟩
  · intro ret rets
    refine ⟨fun he => ?_, fun he hr => ?_⟩
    · have hgo : (client_send_body fd stdin ret).2.2 = false := by
        rw [← Bool.not_eq_true, client_send_body_go fd stdin ret hin]; tauto
      simp [client_send_loop, hgo]
    · have hgo := (client_send_body_go fd stdin ret hin).2 ⟨hr, he⟩
      simp [client_send_loop, hgo, client_send_body_rest fd stdin ret hin]
  · intro flag ret more hflag
    refine ⟨fun he => ?_, fun he hr => ?_⟩
    · have hgo : (server_send_body fd stdin ret).2.2 = false := by
        rw [← Bool.not_eq_true, server_send_body_go fd stdin ret hin]; tauto
      simp [server_send_loop, hgo, hflag]
    · have hgo := (server_send_body_go fd stdin ret hin).2 ⟨hr, he⟩
      simp [server_send_loop, hgo, hflag, server_send_body_rest fd stdin ret hin]
  · intro t more hsel hstd hsock
    obtain ⟨buf, hb⟩ := IO_Client_body_stdin_branch fd beyond stdin t hsel hstd hsock
    have hb1 : (IO_Client_body fd beyond stdin t).2.1 = (readLine (BUF_SIZE - 1) stdin).2 := by
      rw [hb, IO_Client_stdin_rest fd beyond buf stdin t.sendRet hin]
    refine ⟨fun he => ?_, fun he hr => ?_⟩
    · have hgo : (IO_Client_body fd beyond stdin t).2.2 = false := by
        rw [hb]; exact (IO_Client_stdin_go fd beyond buf stdin t.sendRet hin).1 he
      simp [IO_Client, hgo]
    · have hgo : (IO_Client_body fd beyond stdin t).2.2 = true := by
        rw [hb]; exact (IO_Client_stdin_go fd beyond buf stdin t.sendRet hin).2 he hr
      simp [IO_Client, hgo, hb1]

theorem client_exit_piece_trace (fd : Int) (stdin : List Nat) (ret : Int)
    (rets : List Int) (hin : stdin ≠ [])
    (hexit : (readLine (BUF_SIZE - 1) stdin).1.take 4 = exitLit) :
    client_send_loop fd stdin (ret :: rets) =
      [Event.printf "请输入要发送的字符串: ", Event.fgets true,
        Event.send fd (cString (readLine (BUF_SIZE - 1) stdin).1) ret] ++
      (if ret < 0 then [Event.perror "发送错误:"] else []) ++
      [Event.close fd, Event.printf "客户端程序结束\n", Event.exit 0] := by
  simp only [client_send_loop, client_send_body, fgets_of_ne_nil _ _ _ hin,
    exit_test_after_fgets, cString_store, client_finish]
  split_ifs <;> simp_all

/-! ## The receive paths (C1, C10) -/

theorem cString_append_of_no_nul (data beyond : List Nat) (h : NUL ∉ data) :
    cString (data ++ beyond) = data ++ cString beyond := by
  induction data with
  | nil => rfl
  | cons a data ih =>
    simp only [List.mem_cons, not_or] at h
    simp [cString, ih h.2, Ne.symm h.1]

theorem store_full (data : List Nat) (n : Nat) (c : Nat) (h : data.length = n) :
    store (memset n c) data = data := by
  simp [store, memset, h]

/-- C10 at its failing input. A read that fills all `BUF_SIZE` bytes of the
buffer with nonzero bytes, which `read(fd, buf, sizeof(buf))` in
`ReceivedFromClient` and `recv(fd, Buffer, sizeof(Buffer), 0)` in `IO_Client`
both ask for, leaves no zero byte in the buffer: the buffer is the data, and
the text displayed is the data followed by whatever `beyond`, the memory
behind the buffer, holds up to its first zero byte. The client asks for
`BUF_SIZE - 1` bytes, so its buffer keeps a zero byte behind them. -/
theorem full_read_leaves_no_zero_byte (fd : Int) (beyond data : List Nat)
    (hlen : data.length = BUF_SIZE) (hnz : NUL ∉ data) :
    recv (memset BUF_SIZE 0) BUF_SIZE (.bytes data) = (((BUF_SIZE : Nat) : Int), data) ∧
    NUL ∉ (recv (memset BUF_SIZE 0) BUF_SIZE (.bytes data)).2 ∧
    (ReceivedFromClient_body fd beyond (memset BUF_SIZE 0) (.bytes data)).1 =
      [Event.recv fd ((BUF_SIZE : Nat) : Int),
        Event.display "recv from [%s], data is = %s\n" (data ++ cString beyond)] ∧
    (IO_Client_socket fd beyond (memset BUF_SIZE 0) (.bytes data)).1 =
      [Event.recv fd ((BUF_SIZE : Nat) : Int),
        Event.display "recv from [%s], data is = %s\n" (data ++ cString beyond)] ∧
    (recv (memset BUF_SIZE 0) (BUF_SIZE - 1) (.bytes data)).2 =
      data.take (BUF_SIZE - 1) ++ [NUL] := by
  have htake : data.take BUF_SIZE = data := by
    rw [← hlen]; exact List.take_length data
  have hrecv : recv (memset BUF_SIZE 0) BUF_SIZE (.bytes data) = (((BUF_SIZE : Nat) : Int), data) := by
    simp [recv, htake, hlen, store_full data BUF_SIZE 0 hlen]
  have hpos : (0 : Int) < ((BUF_SIZE : Nat) : Int) := by simp [BUF_SIZE]
  refine ⟨hrecv, ?_, ?_, ?_, ?_⟩
  · rw [hrecv]; exact hnz
  · simp [ReceivedFromClient_body, hrecv, hpos, cString_append_of_no_nul data beyond hnz]
  · simp [IO_Client_socket, hrecv, hpos, cString_append_of_no_nul data beyond hnz]
  · have h1 : (data.take (BUF_SIZE - 1)).length = BUF_SIZE - 1 := by
      simp [List.length_take, hlen]
    have h2 : BUF_SIZE - (BUF_SIZE - 1) = 1 := by decide
    simp only [recv, store, memset, h1, List.drop_replicate, h2]
    rfl

/-- C10 at a concrete input: 1024 bytes `A` arrive and the byte `B` lies
behind the buffer; the server displays 1025 bytes. -/
theorem full_read_leaves_no_zero_byte_witness :
    (List.replicate BUF_SIZE 65).length = BUF_SIZE ∧ NUL ∉ List.replicate BUF_SIZE 65 ∧
    (ReceivedFromClient_body 4 [66, 0] (memset BUF_SIZE 0) (.bytes (List.replicate BUF_SIZE 65))).1 =
      [Event.recv 4 ((BUF_SIZE : Nat) : Int),
        Event.display "recv from [%s], data is = %s\n"
          (List.replicate BUF_SIZE 65 ++ cString [66, 0])] :=
  ⟨by simp, by simp [NUL],
   (full_read_leaves_no_zero_byte 4 [66, 0] (List.replicate BUF_SIZE 65) (by simp)
      (by simp [NUL])).2.2.1⟩

/-! ## The send paths (C2, C3, C4, C5) -/

/-- C2, as amended. In each send path, when the input waiting on standard
input begins with the four bytes `exit`, the loop ends with the iteration that
reads it, whatever follows them and whatever `send` returns. When the typed
line `l`, its line feed included, is shorter than the `BUF_SIZE`-byte buffer,
does not begin with `exit` and `send` does not fail, the loop goes on and next
reads what was typed after `l`. For `tcp_server.c` the iteration is one that
is entered (`stop` is 0 and `client_live_flag` is not 0); for `IO_Client` it
is one whose standard-input branch is reached (`select` did not fail for good,
marked standard input, and a marked socket gave bytes). -/
theorem exit_token_on_typed_lines (fd stale : Int) (beyond l more : List Nat) :
    (l.take 4 = exitLit →
      (∀ ret rets, client_send_loop fd (l ++ more) (ret :: rets) =
        (client_send_body fd (l ++ more) ret).1 ++ client_finish fd) ∧
      (∀ flag ret turns, flag ≠ 0 →
        server_send_loop fd (l ++ more) ((false, flag, ret) :: turns) =
          (server_send_body fd (l ++ more) ret).1) ∧
      (∀ (t : Turn) turns, t.sel ≠ .failed false → t.sel.stdinMarked = true →
        (t.sel.socketMarked = true → 0 < (recv (memset BUF_SIZE 0) BUF_SIZE t.inc).1) →
        IO_Client fd stale beyond (l ++ more) ((false, t) :: turns) =
          (IO_Client_body fd beyond (l ++ more) t).1 ++ IO_Client_end stale)) ∧
    (shortLine l → l.take 4 ≠ exitLit →
      (∀ ret rets, 0 ≤ ret → client_send_loop fd (l ++ more) (ret :: rets) =
        (client_send_body fd (l ++ more) ret).1 ++ client_send_loop fd more rets) ∧
      (∀ flag ret turns, flag ≠ 0 → 0 ≤ ret →
        server_send_loop fd (l ++ more) ((false, flag, ret) :: turns) =
          (server_send_body fd (l ++ more) ret).1 ++ server_send_loop fd more turns) ∧
      (∀ (t : Turn) turns, t.sel ≠ .failed false → t.sel.stdinMarked = true →
        (t.sel.socketMarked = true → 0 < (recv (memset BUF_SIZE 0) BUF_SIZE t.inc).1) →
        0 ≤ t.sendRet →
        IO_Client fd stale beyond (l ++ more) ((false, t) :: turns) =
          (IO_Client_body fd beyond (l ++ more) t).1 ++
            IO_Client fd stale beyond more turns)) := by
  refine ⟨fun he => ?_, fun hs hne => ?_⟩
  · have hin : l ++ more ≠ [] := ne_nil_of_take_four _ (take_four_append l more he)
    have hp := take_four_readLine _ (take_four_append l more he)
    obtain ⟨h1, h2, h3⟩ := send_loops_after_fgets fd stale beyond (l ++ more) hin
    exact ⟨fun ret rets => (h1 ret rets).1 hp,
      fun flag ret turns hf => (h2 flag ret turns hf).1 hp,
      fun t turns a b c => (h3 t turns a b c).1 hp⟩
  · have hin : l ++ more ≠ [] := shortLine_append_ne_nil l more hs
    have hr := readLine_shortLine l more hs
    have hp : (readLine (BUF_SIZE - 1) (l ++ more)).1.take 4 ≠ exitLit := by rw [hr]; exact hne
    obtain ⟨h1, h2, h3⟩ := send_loops_after_fgets fd stale beyond (l ++ more) hin
    refine ⟨fun ret rets h0 => ?_, fun flag ret turns hf h0 => ?_, fun t turns a b c h0 => ?_⟩
    · have := (h1 ret rets).2 hp h0
      rwa [hr] at this
    · have := (h2 flag ret turns hf).2 hp h0
      rwa [hr] at this
    · have := (h3 t turns a b c).2 hp h0
      rwa [hr] at this

set_option maxRecDepth 100000 in
/-- C2 at an input: the operator types `exiting` and then `hi`; the client
sends the first line and ends its loop without reading the second. -/
theorem exit_token_on_typed_lines_witness :
    client_send_loop 3 ([101, 120, 105, 116, 105, 110, 103, 10] ++ [104, 105, 10]) [8, 3] =
      (client_send_body 3 ([101, 120, 105, 116, 105, 110, 103, 10] ++ [104, 105, 10]) 8).1 ++
        client_finish 3 :=
  ((exit_token_on_typed_lines 3 21845 [] [101, 120, 105, 116, 105, 110, 103, 10]
      [104, 105, 10]).1 (by decide)).1 8 [3]

set_option maxRecDepth 100000 in
/-- C2 as stated fails for a long line. The operator types one line of 1023
letters `a` followed by `exit`, which does not begin with `exit`, and then the
line `hi`; every `send` succeeds. `fgets` delivers the line in two pieces, the
second piece is `exit` with the line feed, and each of the three send loops
ends there: the line `hi` is never read. -/
theorem long_line_ends_send_loops :
    (List.replicate 1023 97 ++ [101, 120, 105, 116, 10]).take 4 ≠ exitLit ∧
    client_send_loop 3 (List.replicate 1023 97 ++ [101, 120, 105, 116, 10] ++ [104, 105, 10])
        [1023, 5, 3] =
      [Event.printf "请输入要发送的字符串: ", Event.fgets true,
        Event.send 3 (List.replicate 1023 97) 1023,
        Event.printf "请输入要发送的字符串: ", Event.fgets true,
        Event.send 3 [101, 120, 105, 116, 10] 5,
        Event.close 3, Event.printf "客户端程序结束\n", Event.exit 0] ∧
    server_send_loop 4 (List.replicate 1023 97 ++ [101, 120, 105, 116, 10] ++ [104, 105, 10])
        [(false, 1, 1023), (false, 1, 5), (false, 1, 3)] =
      [Event.printf "请输入要发送的字符串(输入exit退出服务器程序):", Event.fgets true,
        Event.send 4 (List.replicate 1023 97) 1023,
        Event.printf "请输入要发送的字符串(输入exit退出服务器程序):", Event.fgets true,
        Event.close 4, Event.printf "服务器端关闭连接\n"] ∧
    IO_Client 4 21845 [] (List.replicate 1023 97 ++ [101, 120, 105, 116, 10] ++ [104, 105, 10])
        [(false, ⟨.ready .stdinOnly, .failure, 1023⟩),
         (false, ⟨.ready .stdinOnly, .failure, 5⟩),
         (false, ⟨.ready .stdinOnly, .failure, 3⟩)] =
      [Event.select 1, Event.printf "请输入要发送的消息：", Event.fgets true,
        Event.send 4 (List.replicate 1023 97) 1023,
        Event.select 1, Event.printf "请输入要发送的消息：", Event.fgets true,
        Event.printf "服务器端关闭与[%s]的连接\n"] ++ IO_Client_end 21845 := by
  decide

/-- C3, as amended. When the client's operator types a line of text `l` (it
ends in its line feed, holds no zero byte and is shorter than the
`BUF_SIZE`-byte buffer) that begins with `exit`, the send loop issues one
`send` whose payload is exactly `l`; after it come only `perror` if that
`send` failed, the `close` of the socket, the last message and
`exit(EXIT_SUCCESS)`. -/
theorem client_exit_text_line_sent_then_closed (fd : Int) (l more : List Nat) (ret : Int)
    (rets : List Int) (hl : typedLine l) (hexit : l.take 4 = exitLit) :
    client_send_loop fd (l ++ more) (ret :: rets) =
      [Event.printf "请输入要发送的字符串: ", Event.fgets true, Event.send fd l ret] ++
      (if ret < 0 then [Event.perror "发送错误:"] else []) ++
      [Event.close fd, Event.printf "客户端程序结束\n", Event.exit 0] := by
  have hr := readLine_typedLine l more hl
  have hin : l ++ more ≠ [] := shortLine_append_ne_nil l more hl.shortLine
  have h := client_exit_piece_trace fd (l ++ more) ret rets hin (by rw [hr]; exact hexit)
  rw [hr, cString_of_no_nul l hl.2.2.1] at h
  exact h

set_option maxRecDepth 100000 in
/-- C3 at an input: the operator types `exit now` and then `hi`; the client
sends the nine bytes of the first line, closes the socket and ends with
status 0. -/
theorem client_exit_text_line_sent_then_closed_witness :
    typedLine [101, 120, 105, 116, 32, 110, 111, 119, 10] ∧
    ([101, 120, 105, 116, 32, 110, 111, 119, 10] : List Nat).take 4 = exitLit ∧
    client_send_loop 3 ([101, 120, 105, 116, 32, 110, 111, 119, 10] ++ [104, 105, 10]) [9, 3] =
      [Event.printf "请输入要发送的字符串: ", Event.fgets true,
        Event.send 3 [101, 120, 105, 116, 32, 110, 111, 119, 10] 9] ++
      (if (9 : Int) < 0 then [Event.perror "发送错误:"] else []) ++
      [Event.close 3, Event.printf "客户端程序结束\n", Event.exit 0] :=
  ⟨by decide, by decide,
   client_exit_text_line_sent_then_closed 3 [101, 120, 105, 116, 32, 110, 111, 119, 10]
     [104, 105, 10] 9 [3] (by decide) (by decide)⟩

set_option maxRecDepth 100000 in
/-- C3 as stated fails for two kinds of line that begin with `exit`. A line
with a zero byte, the eight bytes `exit`, 0, `ab`, line feed: the one `send`
carries the four bytes before the zero byte. A line of 1025 bytes, `exit`,
1020 letters `a`, line feed: the one `send` carries its first 1023 bytes, and
the client closes the socket and ends without sending the other two. -/
theorem client_exit_line_cut_short :
    client_send_loop 3 [101, 120, 105, 116, 0, 97, 98, 10] [4] =
      [Event.printf "请输入要发送的字符串: ", Event.fgets true,
        Event.send 3 [101, 120, 105, 116] 4,
        Event.close 3, Event.printf "客户端程序结束\n", Event.exit 0] ∧
    client_send_loop 3 ([101, 120, 105, 116] ++ List.replicate 1020 97 ++ [10]) [1023, 2] =
      [Event.printf "请输入要发送的字符串: ", Event.fgets true,
        Event.send 3 ([101, 120, 105, 116] ++ List.replicate 1019 97) 1023,
        Event.close 3, Event.printf "客户端程序结束\n", Event.exit 0] := by
  decide

/-- C4, as amended. On the server side a typed line `l` that begins with
`exit` is not sent. The send loop of `tcp_server.c` closes the connection and
ends; the operations of that iteration hold no `send`. `IO_Client` reports
the closing and leaves its loop; whether `select` marked standard input alone
or the socket too (and the socket gave bytes), the operations of that
iteration hold no `send`, and after the loop comes only the `close` of the
value read from the freed block. -/
theorem server_exit_line_not_forwarded (fd stale : Int) (beyond l more : List Nat)
    (hexit : l.take 4 = exitLit) :
    (∀ flag ret turns, flag ≠ 0 →
      server_send_loop fd (l ++ more) ((false, flag, ret) :: turns) =
        [Event.printf "请输入要发送的字符串(输入exit退出服务器程序):", Event.fgets true,
          Event.close fd, Event.printf "服务器端关闭连接\n"]) ∧
    (∀ (t : Turn) turns, t.sel = .ready .stdinOnly →
      IO_Client fd stale beyond (l ++ more) ((false, t) :: turns) =
        [Event.select 1, Event.printf "请输入要发送的消息：", Event.fgets true,
          Event.printf "服务器端关闭与[%s]的连接\n"] ++ IO_Client_end stale) ∧
    (∀ (t : Turn) turns n buf, t.sel = .ready .both ∨ t.sel = .failed true →
      recv (memset BUF_SIZE 0) BUF_SIZE t.inc = (n, buf) → 0 < n →
      IO_Client fd stale beyond (l ++ more) ((false, t) :: turns) =
        [Event.select t.sel.ret, Event.recv fd n,
          Event.display "recv from [%s], data is = %s\n" (cString (buf ++ beyond)),
          Event.printf "请输入要发送的消息：", Event.fgets true,
          Event.printf "服务器端关闭与[%s]的连接\n"] ++ IO_Client_end stale) := by
  have hin : l ++ more ≠ [] := ne_nil_of_take_four _ (take_four_append l more hexit)
  have hp := take_four_readLine _ (take_four_append l more hexit)
  have key := fun buf ret => IO_Client_stdin_exit fd beyond buf (l ++ more) ret hin hp
  refine ⟨?_, ?_, ?_⟩
  · intro flag ret turns hflag
    simp [server_send_loop, server_send_body, fgets_of_ne_nil _ _ _ hin,
      exit_test_after_fgets, hp, hflag]
  · intro t turns ht
    simp [IO_Client, IO_Client_body, ht, SelectResult02.socketMarked,
      SelectResult02.stdinMarked, SelectResult02.ret, key]
  · intro t turns n buf ht hrecv hn
    rcases ht with ht | ht <;>
      simp [IO_Client, IO_Client_body, IO_Client_socket, ht, SelectResult02.socketMarked,
        SelectResult02.stdinMarked, SelectResult02.ret, key, hrecv, hn]

set_option maxRecDepth 100000 in
/-- C4 at an input: the operator of `tcp_server.c` types `exit now`; the
connection is closed and nothing is sent. -/
theorem server_exit_line_not_forwarded_witness :
    ([101, 120, 105, 116, 32, 110, 111, 119, 10] : List Nat).take 4 = exitLit ∧
    server_send_loop 4 ([101, 120, 105, 116, 32, 110, 111, 119, 10] ++ []) [(false, 1, 9)] =
      [Event.printf "请输入要发送的字符串(输入exit退出服务器程序):", Event.fgets true,
        Event.close 4, Event.printf "服务器端关闭连接\n"] :=
  ⟨by decide,
   (server_exit_line_not_forwarded 4 21845 [] [101, 120, 105, 116, 32, 110, 111, 119, 10] []
      (by decide)).1 1 9 [] (by decide)⟩

set_option maxRecDepth 100000 in
/-- C4 as stated fails on both servers: the operator types `exit`; the send
loop of `tcp_server.c` closes the connection without a `send`, and `IO_Client`
leaves its loop without a `send`. -/
theorem server_exit_line_trace_without_send :
    server_send_loop 4 [101, 120, 105, 116, 10] [(false, 1, 5)] =
      [Event.printf "请输入要发送的字符串(输入exit退出服务器程序):", Event.fgets true,
        Event.close 4, Event.printf "服务器端关闭连接\n"] ∧
    IO_Client 4 21845 [] [101, 120, 105, 116, 10]
        [(false, ⟨.ready .stdinOnly, .failure, 5⟩)] =
      [Event.select 1, Event.printf "请输入要发送的消息：", Event.fgets true,
        Event.printf "服务器端关闭与[%s]的连接\n"] ++ IO_Client_end 21845 := by
  decide

/-- C5, as amended. The operator types the lines `lines`, each a line of text
(ended by its line feed, without a zero byte, shorter than the buffer) that
does not begin with `exit`; every `send` succeeds and the session stays
active. The client and the send loop of `tcp_server.c` issue one `send` per
line, carrying the line, in the order typed. `IO_Client` does so for every
line but those that are a line feed alone, which it skips. The session stays
active: `stop` is 0 at every test, `client_live_flag` is not 0, `select` in
`IO_Client` does not fail for good and a marked socket gives bytes. -/
theorem send_paths_transmit_lines_in_order (fd stale : Int) (beyond more : List Nat)
    (lines : List (List Nat)) (hl : ∀ l ∈ lines, typedLine l ∧ l.take 4 ≠ exitLit) :
    (∀ rets : List Int, rets.length = lines.length → (∀ r ∈ rets, 0 ≤ r) →
      sentPayloads (client_send_loop fd (lines.flatten ++ more) rets) = lines) ∧
    (∀ turns : List (Bool × Int × Int), turns.length = lines.length →
      (∀ t ∈ turns, t.1 = false ∧ t.2.1 ≠ 0 ∧ 0 ≤ t.2.2) →
      sentPayloads (server_send_loop fd (lines.flatten ++ more) turns) = lines) ∧
    (∀ turns : List (Bool × Turn),
      (turns.filter (fun t => t.2.sel.stdinMarked)).length = lines.length →
      (∀ t ∈ turns, t.1 = false ∧ t.2.sel ≠ .failed false ∧
        (t.2.sel.socketMarked = true → 0 < (recv (memset BUF_SIZE 0) BUF_SIZE t.2.inc).1) ∧
        0 ≤ t.2.sendRet) →
      sentPayloads (IO_Client fd stale beyond (lines.flatten ++ more) turns) =
        lines.filter (fun l => decide (l ≠ [NEWLINE]))) :=
  ⟨client_send_loop_sends_lines fd lines more hl,
   server_send_loop_sends_lines fd lines more hl,
   fun turns => IO_Client_sends_lines fd stale beyond more turns lines hl⟩

set_option maxRecDepth 100000 in
/-- C5 at an input: the operator types `hi` and then an empty line; the
client sends both, `IO_Client` sends the first only. -/
theorem send_paths_transmit_lines_in_order_witness :
    (∀ l ∈ ([[104, 105, 10], [10]] : List (List Nat)), typedLine l ∧ l.take 4 ≠ exitLit) ∧
    sentPayloads (client_send_loop 3 ([[104, 105, 10], [10]].flatten ++ []) [3, 1]) =
      [[104, 105, 10], [10]] :=
  ⟨by decide,
   (send_paths_transmit_lines_in_order 3 21845 [] [] [[104, 105, 10], [10]] (by decide)).1 [3, 1]
     (by decide) (by decide)⟩

set_option maxRecDepth 100000 in
/-- C5 as stated fails: `IO_Client` issues no `send` for a line that is a line
feed alone, and a line with a zero byte in it is sent only up to that byte
(here by the client: `a`, zero, `b`, line feed). -/
theorem newline_only_line_not_sent :
    sentPayloads (IO_Client 4 21845 [] [10] [(false, ⟨.ready .stdinOnly, .failure, 1⟩)]) = [] ∧
    sentPayloads (client_send_loop 3 [97, 0, 98, 10] [1]) = [[97]] := by
  decide

/-! ## Closing, stopping and accepting (C6, C7, C8, C9) -/

set_option maxRecDepth 100000 in
/-- C6 at its failing inputs. Client: the server closes the connection, so the
receive thread reads 0 and closes the socket; then the operator types `exit`,
`send` fails, and `main` closes the same descriptor again: two `close` calls.
`tcp_server.c`: the operator types `exit` during a session, `main` closes
`connect_fd`; the receive thread's `read` then fails and the thread closes the
same descriptor again: two `close` calls. -/
theorem connection_closed_twice :
    (Client.run 3 [] (Client.start [101, 120, 105, 116, 10])
        [.recvReturns (.bytes []), .lineTyped (-1)]).trace =
      [Event.printf "服务器连接成功...\n\n",
        Event.recv 3 0, Event.printf "服务器断开连接\n", Event.close 3,
        Event.printf "请输入要发送的字符串: ", Event.fgets true,
        Event.send 3 [101, 120, 105, 116, 10] (-1), Event.perror "发送错误:",
        Event.close 3, Event.printf "客户端程序结束\n", Event.exit 0] ∧
    closeCount 3 (Client.run 3 [] (Client.start [101, 120, 105, 116, 10])
        [.recvReturns (.bytes []), .lineTyped (-1)]).trace = 2 ∧
    (Server.run [] (Server.start 3 [101, 120, 105, 116, 10])
        [.selectReturns (.ready .listenerOnly), .acceptReturns (.connection 4) true true,
         .receiverTest 0, .lineTyped 0, .readReturns 0 .failure]).trace =
      [Event.printf "服务器已经运行, 开始监听中...\n",
        Event.printf "从队列出取出一个请求或等待新的客户端连接\n",
        Event.select 1, Event.accept 4, Event.live 1,
        Event.printf "已经从队列出取出一个请求, 连接成功\n", Event.spawn 4,
        Event.printf "请输入要发送的字符串(输入exit退出服务器程序):", Event.fgets true,
        Event.close 4, Event.printf "服务器端关闭连接\n",
        Event.printf "从队列出取出一个请求或等待新的客户端连接\n",
        Event.recv 4 (-1), Event.perror "读取客户端发送的数据错误",
        Event.close 4, Event.live 0] ∧
    closeCount 4 (Server.run [] (Server.start 3 [101, 120, 105, 116, 10])
        [.selectReturns (.ready .listenerOnly), .acceptReturns (.connection 4) true true,
         .receiverTest 0, .lineTyped 0, .readReturns 0 .failure]).trace = 2 := by
  decide

theorem Server02.run_typed (s : Server02) (typed : List (List Nat)) :
    Server02.run s (typed.map Action02.typed) = { s with stdin := s.stdin ++ typed.flatten } := by
  induction typed generalizing s with
  | nil => simp [Server02.run]
  | cons l ls ih =>
    have := ih (Server02.step s (.typed l))
    simp only [Server02.run, List.map_cons, List.foldl_cons] at this ⊢
    rw [this]
    simp [Server02.step, List.append_assoc]

set_option maxRecDepth 100000 in
/-- C7 at its failing input. `tcp_server02.c` with no session: whatever the
operator types, `exit` included, `main` stays in `accept`, has closed nothing
and has read nothing of it. `tcp_server.c` in the same situation reads the
line, leaves its loop and closes the listening socket. -/
theorem server02_acceptor_ignores_terminal (tcp_socket : Int) (typed : List (List Nat)) :
    Server02.run (Server02.start tcp_socket []) (typed.map Action02.typed) =
      { stop := false, tcp_socket := tcp_socket, stdin := typed.flatten, pc := .inAccept,
        sessions := [],
        trace := [Event.printf "服务器开始运行, 监听的端口号为：%d\n",
          Event.printf "等待新的客户端连接\n"] } ∧
    Server02.run (Server02.start 3 []) [.typed [101, 120, 105, 116, 10]] =
      { stop := false, tcp_socket := 3, stdin := [101, 120, 105, 116, 10], pc := .inAccept,
        sessions := [],
        trace := [Event.printf "服务器开始运行, 监听的端口号为：%d\n",
          Event.printf "等待新的客户端连接\n"] } ∧
    Server.run [] (Server.start 3 [101, 120, 105, 116, 10])
        [.selectReturns (.ready .stdinOnly), .commandTyped []] =
      { stop := false, client_live_flag := -1, tcp_socket := 3, connect_fd := 0, stdin := [],
        pc := .returned, receivers := [],
        trace := [Event.printf "服务器已经运行, 开始监听中...\n",
          Event.printf "从队列出取出一个请求或等待新的客户端连接\n",
          Event.select 1, Event.fgets true, Event.close 3,
          Event.printf "服务器程序结束\n"] } := by
  refine ⟨?_, by decide, by decide⟩
  rw [Server02.run_typed]
  simp [Server02.start, Server02.loopTest]

set_option maxRecDepth 100000 in
/-- C8 at its failing input. `tcp_server.c`: SIGINT arrives while `main` is in
`select`, the handler sets `stop` and `select` fails with EINTR; `main` then
calls `fgets` on the terminal and waits there, the listening socket still
open; it leaves its loop only when a line has been typed. `tcp_server02.c`:
after the same interrupt of `accept`, `main` leaves its loop at once and
closes the listening socket. -/
theorem interrupted_select_reads_terminal :
    Server.run [] (Server.start 3 [104, 105, 10]) [.sigint, .selectReturns (.failed true)] =
      { stop := true, client_live_flag := -1, tcp_socket := 3, connect_fd := 0,
        stdin := [104, 105, 10], pc := .inCommandFgets, receivers := [],
        trace := [Event.printf "服务器已经运行, 开始监听中...\n",
          Event.printf "从队列出取出一个请求或等待新的客户端连接\n",
          Event.select (-1)] } ∧
    Server.run [] (Server.start 3 [104, 105, 10])
        [.sigint, .selectReturns (.failed true), .commandTyped []] =
      { stop := true, client_live_flag := -1, tcp_socket := 3, connect_fd := 0,
        stdin := [], pc := .returned, receivers := [],
        trace := [Event.printf "服务器已经运行, 开始监听中...\n",
          Event.printf "从队列出取出一个请求或等待新的客户端连接\n",
          Event.select (-1), Event.fgets true, Event.close 3,
          Event.printf "服务器程序结束\n"] } ∧
    Server02.run (Server02.start 3 []) [.sigint, .acceptReturns (.failed true) true true] =
      { stop := true, tcp_socket := 3, stdin := [], pc := .returned, sessions := [],
        trace := [Event.printf "服务器开始运行, 监听的端口号为：%d\n",
          Event.printf "等待新的客户端连接\n", Event.accept (-1), Event.close 3,
          Event.printf "服务器程序结束\n"] } := by
  decide

set_option maxRecDepth 100000 in
/-- C9 at its failing inputs. In `tcp_server.c` the first client is accepted on
descriptor 4 and its receive thread waits in `read`. (1) The operator types
`exit`: `main` closes descriptor 4, returns to `select` and accepts a second
connection while the first receive thread is still in `read`. (2) The operator
types `hi` and `send` fails: `main` leaves the send loop and accepts a second
connection while the first connection has not been closed and its receive
thread is still in `read`. -/
theorem second_accept_before_first_session_ends :
    (Server.run [] (Server.start 3 [101, 120, 105, 116, 10])
        [.selectReturns (.ready .listenerOnly), .acceptReturns (.connection 4) true true,
         .receiverTest 0, .lineTyped 0,
         .selectReturns (.ready .listenerOnly), .acceptReturns (.connection 5) true true]).trace =
      [Event.printf "服务器已经运行, 开始监听中...\n",
        Event.printf "从队列出取出一个请求或等待新的客户端连接\n",
        Event.select 1, Event.accept 4, Event.live 1,
        Event.printf "已经从队列出取出一个请求, 连接成功\n", Event.spawn 4,
        Event.printf "请输入要发送的字符串(输入exit退出服务器程序):", Event.fgets true,
        Event.close 4, Event.printf "服务器端关闭连接\n",
        Event.printf "从队列出取出一个请求或等待新的客户端连接\n",
        Event.select 1, Event.accept 5, Event.live 1,
        Event.printf "已经从队列出取出一个请求, 连接成功\n", Event.spawn 5] ∧
    (Server.run [] (Server.start 3 [101, 120, 105, 116, 10])
        [.selectReturns (.ready .listenerOnly), .acceptReturns (.connection 4) true true,
         .receiverTest 0, .lineTyped 0,
         .selectReturns (.ready .listenerOnly),
         .acceptReturns (.connection 5) true true]).receivers.map (fun r => (r.fd, r.pc)) =
      [(4, .inRead), (5, .atTest)] ∧
    (Server.run [] (Server.start 3 [104, 105, 10])
        [.selectReturns (.ready .listenerOnly), .acceptReturns (.connection 4) true true,
         .receiverTest 0, .lineTyped (-1),
         .selectReturns (.ready .listenerOnly), .acceptReturns (.connection 5) true true]).trace =
      [Event.printf "服务器已经运行, 开始监听中...\n",
        Event.printf "从队列出取出一个请求或等待新的客户端连接\n",
        Event.select 1, Event.accept 4, Event.live 1,
        Event.printf "已经从队列出取出一个请求, 连接成功\n", Event.spawn 4,
        Event.printf "请输入要发送的字符串(输入exit退出服务器程序):", Event.fgets true,
        Event.send 4 [104, 105, 10] (-1), Event.perror "发送错误:",
        Event.printf "从队列出取出一个请求或等待新的客户端连接\n",
        Event.select 1, Event.accept 5, Event.live 1,
        Event.printf "已经从队列出取出一个请求, 连接成功\n", Event.spawn 5] ∧
    (Server.run [] (Server.start 3 [104, 105, 10])
        [.selectReturns (.ready .listenerOnly), .acceptReturns (.connection 4) true true,
         .receiverTest 0, .lineTyped (-1),
         .selectReturns (.ready .listenerOnly),
         .acceptReturns (.connection 5) true true]).receivers.map (fun r => (r.fd, r.pc)) =
      [(4, .inRead), (5, .atTest)] := by
  decide

/-! ## What holds beside the claims -/

theorem cString_append_zeros (l beyond : List Nat) (k : Nat) (hk : 0 < k) :
    cString (l ++ List.replicate k 0 ++ beyond) = cString l := by
  obtain ⟨j, rfl⟩ : ∃ j, k = j + 1 := ⟨k - 1, by omega⟩
  rw [List.replicate_succ, List.append_assoc, List.cons_append]
  exact cString_append_nul l _

/-- X2. In the client's receive thread a read that returns bytes displays
exactly the bytes taken, at most `BUF_SIZE - 1` of them, up to their first
zero byte, whatever lies behind the buffer: the buffer keeps a zero byte. -/
theorem client_displays_received_chunk (fd : Int) (beyond d : List Nat) (hd : d ≠ []) :
    receive_from_server_body fd beyond (.bytes d) =
      ([Event.recv fd (((d.take (BUF_SIZE - 1)).length : Nat) : Int),
        Event.display "从服务器接收到数据: %s\n" (cString (d.take (BUF_SIZE - 1)))], true) ∧
    NUL ∈ (recv (memset BUF_SIZE 0) (BUF_SIZE - 1) (.bytes d)).2 := by
  have hlen : (d.take (BUF_SIZE - 1)).length ≤ BUF_SIZE - 1 := by
    simp [List.length_take]
  have hpos : 0 < (d.take (BUF_SIZE - 1)).length := by
    cases d with
    | nil => exact absurd rfl hd
    | cons a d => simp [BUF_SIZE]
  have hstore : store (memset BUF_SIZE 0) (d.take (BUF_SIZE - 1)) =
      d.take (BUF_SIZE - 1) ++ List.replicate (BUF_SIZE - (d.take (BUF_SIZE - 1)).length) 0 := by
    simp only [store, memset, List.drop_replicate]
  have hk : 0 < BUF_SIZE - (d.take (BUF_SIZE - 1)).length := by
    have : BUF_SIZE - 1 < BUF_SIZE := by decide
    omega
  constructor
  · have hn : (0 : Int) < (((d.take (BUF_SIZE - 1)).length : Nat) : Int) := by exact_mod_cast hpos
    simp only [receive_from_server_body, recv, hn, if_true, hstore]
    rw [cString_append_zeros _ _ _ hk]
  · simp only [recv, hstore]
    apply List.mem_append_right
    obtain ⟨j, hj⟩ : ∃ j, BUF_SIZE - (d.take (BUF_SIZE - 1)).length = j + 1 := ⟨_, (Nat.succ_pred_eq_of_pos hk).symm⟩
    rw [hj, List.replicate_succ]
    exact List.mem_cons_self _ _

/-- X4. The acceptor of `tcp_server.c`, reading a command line: a line that
begins with `exit` makes `main` close the listening socket and return; any
other line, with `stop` not set, leads back to `select` and creates no
receive thread. -/
theorem acceptor_command_line (beyond junk : List Nat) (s : Server) (hpc : s.pc = .inCommandFgets)
    (hin : s.stdin ≠ []) :
    ((readLine (BUF_SIZE - 1) s.stdin).1.take 4 = exitLit →
      Server.step beyond s (.commandTyped junk) =
        { s with stdin := (readLine (BUF_SIZE - 1) s.stdin).2, pc := .returned,
                 trace := s.trace ++ [Event.fgets true, Event.close s.tcp_socket,
                   Event.printf "服务器程序结束\n"] }) ∧
    ((readLine (BUF_SIZE - 1) s.stdin).1.take 4 ≠ exitLit → s.stop = false →
      Server.step beyond s (.commandTyped junk) =
        { s with stdin := (readLine (BUF_SIZE - 1) s.stdin).2, pc := .inSelect,
                 trace := s.trace ++ [Event.fgets true,
                   Event.printf "从队列出取出一个请求或等待新的客户端连接\n"] }) := by
  refine ⟨fun he => ?_, fun he hs => ?_⟩
  · simp [Server.step, hpc, fgets_of_ne_nil _ _ _ hin, exit_test_after_fgets, he, Server.leave]
  · simp [Server.step, hpc, fgets_of_ne_nil _ _ _ hin, exit_test_after_fgets, he,
      Server.loopTest, hs]

/-- X5. The acceptor of `tcp_server02.c`: when `accept` fails with EINTR
and `stop` has been set, `main` leaves its loop at the next test and closes
the listening socket, with no other call in between. -/
theorem accept_interrupted_after_sigint (s : Server02) (mallocOk createOk : Bool) (hpc : s.pc = .inAccept)
    (hstop : s.stop = true) :
    Server02.step s (.acceptReturns (.failed true) mallocOk createOk) =
      { s with pc := .returned,
               trace := s.trace ++ [Event.accept (-1), Event.close s.tcp_socket,
                 Event.printf "服务器程序结束\n"] } := by
  simp [Server02.step, hpc, Server02.loopTest, hstop]

@[simp] theorem Server.leave_receivers (s : Server) : s.leave.receivers = s.receivers := rfl
@[simp] theorem Server.leave_flag (s : Server) : s.leave.client_live_flag = s.client_live_flag := rfl
theorem Server.mem_leave_trace (s : Server) (e : Event) (h : e ∈ s.trace) : e ∈ s.leave.trace := by
  simp [Server.leave, h]

@[simp] theorem Server.loopTest_receivers (s : Server) : s.loopTest.receivers = s.receivers := by
  unfold Server.loopTest; split_ifs <;> rfl
@[simp] theorem Server.loopTest_flag (s : Server) :
    s.loopTest.client_live_flag = s.client_live_flag := by
  unfold Server.loopTest; split_ifs <;> rfl
theorem Server.mem_loopTest_trace (s : Server) (e : Event) (h : e ∈ s.trace) :
    e ∈ s.loopTest.trace := by
  unfold Server.loopTest; split_ifs <;> simp [Server.leave, h]

@[simp] theorem Server.sendTest_receivers (s : Server) : s.sendTest.receivers = s.receivers := by
  unfold Server.sendTest; split_ifs <;> simp
@[simp] theorem Server.sendTest_flag (s : Server) :
    s.sendTest.client_live_flag = s.client_live_flag := by
  unfold Server.sendTest; split_ifs <;> simp
theorem Server.mem_sendTest_trace (s : Server) (e : Event) (h : e ∈ s.trace) :
    e ∈ s.sendTest.trace := by
  unfold Server.sendTest; split_ifs <;> first | exact Server.mem_loopTest_trace s e h | exact h

theorem set_eq_singleton {α : Type} (l : List α) (k : Nat) (r x y : α)
    (hget : l.get? k = some r) (hset : l.set k x = [y]) : l = [r] ∧ y = x := by
  cases l with
  | nil => simp at hget
  | cons a l =>
    cases k with
    | zero =>
      simp at hget hset
      obtain ⟨rfl, rfl⟩ := hset
      subst hget
      exact ⟨rfl, rfl⟩
    | succ k =>
      simp at hget hset
      obtain ⟨-, rfl⟩ := hset
      simp at hget

theorem set_ne_nil {α : Type} (l : List α) (k : Nat) (r x : α)
    (hget : l.get? k = some r) : l.set k x ≠ [] := by
  cases l with
  | nil => simp at hget
  | cons a l => cases k <;> simp

theorem Server.flagSound_iff (s : Server) :
    s.flagSound ↔
      (s.receivers = [] → s.client_live_flag ≠ 0) ∧
      (∀ r, s.receivers = [r] →
        (s.client_live_flag = 0 → r.pc = .exited) ∧
        (r.pc = .exited → Event.close r.fd ∈ s.trace)) := by
  unfold Server.flagSound
  split <;> rename_i h <;> simp [h]

theorem Server.flagSound_of_main_step (s t : Server) (h : s.flagSound)
    (hr : t.receivers = s.receivers)
    (hf : t.client_live_flag = s.client_live_flag ∨ t.client_live_flag = 1)
    (ht : ∀ e ∈ s.trace, e ∈ t.trace) : t.flagSound := by
  rw [Server.flagSound_iff] at h ⊢
  refine ⟨fun hnil => ?_, fun r hone => ⟨fun hz => ?_, fun hx => ?_⟩⟩
  · rcases hf with hf | hf
    · rw [hf]; exact h.1 (hr ▸ hnil)
    · rw [hf]; decide
  · rcases hf with hf | hf
    · exact (h.2 r (hr ▸ hone)).1 (hf ▸ hz)
    · rw [hf] at hz; exact absurd hz (by decide)
  · exact ht _ ((h.2 r (hr ▸ hone)).2 hx)

theorem Server.flagSound_step (beyond : List Nat) (s : Server) (a : Action) (h : s.flagSound) :
    (Server.step beyond s a).flagSound := by
  have h' := (Server.flagSound_iff s).1 h
  cases a with
  | sigint => exact h
  | selectReturns r =>
    simp only [Server.step]
    split_ifs with hpc
    · exact h
    · rcases r with (_ | _ | _) | (_ | _) <;>
        refine Server.flagSound_of_main_step s _ h (by simp) (Or.inl (by simp)) (fun e he => ?_) <;>
        first
        | exact Server.mem_leave_trace _ _ (by simp [he])
        | simp [he]
  | commandTyped junk =>
    simp only [Server.step]
    split_ifs with hpc hx
    · exact h
    · exact Server.flagSound_of_main_step s _ h (by simp) (Or.inl (by simp))
        (fun e he => Server.mem_leave_trace _ _ (by simp [he]))
    · exact Server.flagSound_of_main_step s _ h (by simp) (Or.inl (by simp))
        (fun e he => Server.mem_loopTest_trace _ _ (by simp [he]))
  | acceptReturns r m c =>
    by_cases hpc : s.pc ≠ .inAccept
    · simp only [Server.step]; rw [if_pos hpc]; exact h
    · rcases r with fd | (_ | _)
      · by_cases hm : m = false
        · simp only [Server.step, hpc, hm, ↓reduceIte]
          exact Server.flagSound_of_main_step s _ h (by simp) (Or.inr (by simp))
            (fun e he => Server.mem_loopTest_trace _ _ (by simp [he]))
        · by_cases hc : c = false
          · simp only [Server.step, hpc, hm, hc, ↓reduceIte]
            exact Server.flagSound_of_main_step s _ h (by simp) (Or.inr (by simp))
              (fun e he => Server.mem_loopTest_trace _ _ (by simp [he]))
          · simp only [Server.step, hpc, hm, hc, ↓reduceIte]
            refine (Server.flagSound_iff _).2 ⟨fun hnil => ?_, fun r hone => ⟨fun hz => ?_, fun hx => ?_⟩⟩
            · simp at hnil
            · simp at hz
            · simp only [Server.sendTest_receivers] at hone
              have : r = ⟨(fd : Int), memset BUF_SIZE 0, .atTest⟩ := by
                cases hs : s.receivers with
                | nil => rw [hs] at hone; simp at hone; exact hone.symm
                | cons x xs => rw [hs] at hone; simp at hone
              rw [this] at hx
              simp at hx
      · simp only [Server.step, hpc, ↓reduceIte]
        exact Server.flagSound_of_main_step s _ h (by simp) (Or.inl (by simp))
          (fun e he => Server.mem_loopTest_trace _ _ (by simp [he]))
      · simp only [Server.step, hpc, ↓reduceIte]
        exact Server.flagSound_of_main_step s _ h (by simp) (Or.inl (by simp))
          (fun e he => Server.mem_loopTest_trace _ _ (by simp [he]))
  | lineTyped ret =>
    simp only [Server.step]
    split_ifs with hpc hgo
    · exact h
    · exact Server.flagSound_of_main_step s _ h (by simp) (Or.inl (by simp))
        (fun e he => Server.mem_sendTest_trace _ _ (by simp [he]))
    · exact Server.flagSound_of_main_step s _ h (by simp) (Or.inl (by simp))
        (fun e he => Server.mem_loopTest_trace _ _ (by simp [he]))
  | receiverTest k =>
    simp only [Server.step]
    cases hget : s.receivers.get? k with
    | none => exact h
    | some r =>
      simp only
      by_cases hpc : r.pc ≠ .atTest
      · rw [if_pos hpc]; exact h
      · rw [if_neg hpc]
        have hpc' : r.pc = .atTest := by simpa using hpc
        by_cases hstop : s.stop = true
        · rw [if_pos hstop]
          refine (Server.flagSound_iff _).2 ⟨fun hnil => absurd hnil (set_ne_nil _ _ _ _ hget),
            fun y hone => ⟨fun _ => ?_, fun _ => ?_⟩⟩
          · rw [(set_eq_singleton _ _ _ _ _ hget hone).2]
          · rw [(set_eq_singleton _ _ _ _ _ hget hone).2]
            simp [ReceivedFromClient_end]
        · rw [if_neg hstop]
          refine (Server.flagSound_iff _).2 ⟨fun hnil => absurd hnil (set_ne_nil _ _ _ _ hget),
            fun y hone => ⟨fun hz => ?_, fun hx => ?_⟩⟩
          · have := (h'.2 r (set_eq_singleton _ _ _ _ _ hget hone).1).1 hz
            rw [hpc'] at this
            exact absurd this (by decide)
          · rw [(set_eq_singleton _ _ _ _ _ hget hone).2] at hx
            simp at hx
  | readReturns k inc =>
    simp only [Server.step]
    cases hget : s.receivers.get? k with
    | none => exact h
    | some r =>
      simp only
      by_cases hpc : r.pc ≠ .inRead
      · rw [if_pos hpc]; exact h
      · rw [if_neg hpc]
        have hpc' : r.pc = .inRead := by simpa using hpc
        by_cases hgo : (ReceivedFromClient_body r.fd beyond r.buf inc).2.2 = true
        · rw [if_pos hgo]
          refine (Server.flagSound_iff _).2 ⟨fun hnil => absurd hnil (set_ne_nil _ _ _ _ hget),
            fun y hone => ⟨fun hz => ?_, fun hx => ?_⟩⟩
          · have := (h'.2 r (set_eq_singleton _ _ _ _ _ hget hone).1).1 hz
            rw [hpc'] at this
            exact absurd this (by decide)
          · rw [(set_eq_singleton _ _ _ _ _ hget hone).2] at hx
            simp at hx
        · rw [if_neg hgo]
          refine (Server.flagSound_iff _).2 ⟨fun hnil => absurd hnil (set_ne_nil _ _ _ _ hget),
            fun y hone => ⟨fun _ => ?_, fun _ => ?_⟩⟩
          · rw [(set_eq_singleton _ _ _ _ _ hget hone).2]
          · rw [(set_eq_singleton _ _ _ _ _ hget hone).2]
            simp [ReceivedFromClient_end]

theorem Server.flagSound_start (tcp_socket : Int) (stdin : List Nat) :
    (Server.start tcp_socket stdin).flagSound := by
  refine (Server.flagSound_iff _).2 ⟨fun _ => ?_, fun r hone => ?_⟩
  · simp [Server.start]
  · simp [Server.start] at hone

theorem Server.flagSound_run (beyond : List Nat) (acts : List Action) :
    ∀ s : Server, s.flagSound → (Server.run beyond s acts).flagSound := by
  induction acts with
  | nil => intro s h; exact h
  | cons a acts ih =>
    intro s h
    exact ih _ (Server.flagSound_step beyond s a h)

/-- X3. In every run of `tcp_server.c`, while one receive thread has been
created, `client_live_flag == 0` means that this thread has ended and has
closed its connection: the send loop that leaves with
`if (client_live_flag == 0) break;` leaves a session that is over. -/
theorem flag_zero_means_receiver_done (beyond : List Nat) (tcp_socket : Int) (stdin : List Nat) (acts : List Action)
    (r : Receiver)
    (hone : (Server.run beyond (Server.start tcp_socket stdin) acts).receivers = [r])
    (hflag : (Server.run beyond (Server.start tcp_socket stdin) acts).client_live_flag = 0) :
    r.pc = .exited ∧
    Event.close r.fd ∈ (Server.run beyond (Server.start tcp_socket stdin) acts).trace := by
  have h := (Server.flagSound_iff _).1
    (Server.flagSound_run beyond acts _ (Server.flagSound_start tcp_socket stdin))
  exact ⟨(h.2 r hone).1 hflag, (h.2 r hone).2 ((h.2 r hone).1 hflag)⟩

set_option maxRecDepth 100000 in
/-- X2 at an input: the two bytes `hi` arrive and the byte `B` lies behind the buffer. -/
theorem client_displays_received_chunk_witness :
    ([104, 105] : List Nat) ≠ [] ∧
    receive_from_server_body 3 [66, 0] (.bytes [104, 105]) =
      ([Event.recv 3 ((([104, 105] : List Nat).take (BUF_SIZE - 1)).length : Nat),
        Event.display "从服务器接收到数据: %s\n" (cString (([104, 105] : List Nat).take (BUF_SIZE - 1)))],
        true) :=
  ⟨by decide, (client_displays_received_chunk 3 [66, 0] [104, 105] (by decide)).1⟩

set_option maxRecDepth 100000 in
/-- X3 at an input: the first client is accepted on descriptor 4 and closes
the connection; the receive thread reads 0, closes descriptor 4 and sets the
flag. -/
theorem flag_zero_means_receiver_done_witness :
    (Server.run [] (Server.start 3 [])
        [.selectReturns (.ready .listenerOnly), .acceptReturns (.connection 4) true true,
         .receiverTest 0, .readReturns 0 (.bytes [])]).receivers =
      [⟨4, memset BUF_SIZE 0, .exited⟩] ∧
    (Server.run [] (Server.start 3 [])
        [.selectReturns (.ready .listenerOnly), .acceptReturns (.connection 4) true true,
         .receiverTest 0, .readReturns 0 (.bytes [])]).client_live_flag = 0 ∧
    Event.close 4 ∈ (Server.run [] (Server.start 3 [])
        [.selectReturns (.ready .listenerOnly), .acceptReturns (.connection 4) true true,
         .receiverTest 0, .readReturns 0 (.bytes [])]).trace :=
  ⟨by decide, by decide,
   (flag_zero_means_receiver_done [] 3 []
      [.selectReturns (.ready .listenerOnly), .acceptReturns (.connection 4) true true,
       .receiverTest 0, .readReturns 0 (.bytes [])] ⟨4, memset BUF_SIZE 0, .exited⟩
      (by decide) (by decide)).2⟩

set_option maxRecDepth 100000 in
/-- X4 at an input: with no session the operator types `exit`. -/
theorem acceptor_command_line_witness :
    (Server.run [] (Server.start 3 [101, 120, 105, 116, 10])
        [.selectReturns (.ready .stdinOnly)]).pc = .inCommandFgets ∧
    (Server.run [] (Server.start 3 [101, 120, 105, 116, 10])
        [.selectReturns (.ready .stdinOnly)]).stdin ≠ [] ∧
    (Server.step [] (Server.run [] (Server.start 3 [101, 120, 105, 116, 10])
        [.selectReturns (.ready .stdinOnly)]) (.commandTyped [])).pc = .returned :=
  ⟨by decide, by decide,
   by
    have h := (acceptor_command_line [] [] (Server.run [] (Server.start 3 [101, 120, 105, 116, 10])
        [.selectReturns (.ready .stdinOnly)]) (by decide) (by decide)).1 (by decide)
    rw [h]⟩

set_option maxRecDepth 100000 in
/-- X5 at an input: SIGINT arrives while `main` of `tcp_server02.c` is in `accept`. -/
theorem accept_interrupted_after_sigint_witness :
    (Server02.run (Server02.start 3 []) [.sigint]).pc = .inAccept ∧
    (Server02.run (Server02.start 3 []) [.sigint]).stop = true ∧
    (Server02.step (Server02.run (Server02.start 3 []) [.sigint])
        (.acceptReturns (.failed true) true true)).pc = .returned :=
  ⟨by decide, by decide,
   by
    rw [accept_interrupted_after_sigint (Server02.run (Server02.start 3 []) [.sigint]) true true
      (by decide) (by decide)]⟩

theorem ReceivedFromClient_body_buf (fd : Int) (beyond buf : List Nat) (inc : Incoming)
    (hgo : (ReceivedFromClient_body fd beyond buf inc).2.2 = true) :
    (ReceivedFromClient_body fd beyond buf inc).2.1 = memset BUF_SIZE 0 := by
  simp only [ReceivedFromClient_body] at hgo ⊢
  split_ifs at hgo ⊢
  simp_all

theorem Server.buffersZero_step (beyond : List Nat) (s : Server) (a : Action)
    (h : ∀ r ∈ s.receivers, r.pc ≠ .exited → r.buf = memset BUF_SIZE 0) :
    ∀ r ∈ (Server.step beyond s a).receivers, r.pc ≠ .exited → r.buf = memset BUF_SIZE 0 := by
  cases a with
  | sigint => exact h
  | selectReturns r =>
    simp only [Server.step]
    split_ifs with hpc
    · exact h
    · rcases r with (_ | _ | _) | (_ | _) <;> simpa using h
  | commandTyped junk =>
    simp only [Server.step]
    split_ifs <;> simpa using h
  | acceptReturns r m c =>
    by_cases hpc : s.pc ≠ .inAccept
    · simp only [Server.step]; rw [if_pos hpc]; exact h
    · rcases r with fd | (_ | _)
      · by_cases hm : m = false
        · simp only [Server.step, hpc, hm, ↓reduceIte]; simpa using h
        · by_cases hc : c = false
          · simp only [Server.step, hpc, hm, hc, ↓reduceIte]; simpa using h
          · obtain rfl : m = true := by simpa using hm
            obtain rfl : c = true := by simpa using hc
            simp only [Server.step, hpc, ↓reduceIte, Bool.true_eq_false,
              Server.sendTest_receivers]
            intro r hr hx
            rcases List.mem_append.1 hr with hr | hr
            · exact h r hr hx
            · simp at hr; rw [hr]
      · simp only [Server.step, hpc, ↓reduceIte]; simpa using h
      · simp only [Server.step, hpc, ↓reduceIte]; simpa using h
  | lineTyped ret =>
    simp only [Server.step]
    split_ifs <;> simpa using h
  | receiverTest k =>
    simp only [Server.step]
    cases hget : s.receivers.get? k with
    | none => exact h
    | some r0 =>
      have hmem : r0 ∈ s.receivers := List.get?_mem hget
      simp only
      split_ifs
      · exact h
      · intro r hr hx
        rcases List.mem_or_eq_of_mem_set hr with hr | hr
        · exact h r hr hx
        · rw [hr] at hx; simp at hx
      · intro r hr hx
        rcases List.mem_or_eq_of_mem_set hr with hr | hr
        · exact h r hr hx
        · rw [hr]; exact h r0 hmem (by simp_all)
  | readReturns k inc =>
    simp only [Server.step]
    cases hget : s.receivers.get? k with
    | none => exact h
    | some r0 =>
      simp only
      split_ifs with hpc hgo
      · exact h
      · intro r hr hx
        rcases List.mem_or_eq_of_mem_set hr with hr | hr
        · exact h r hr hx
        · rw [hr]; exact ReceivedFromClient_body_buf _ _ _ _ hgo
      · intro r hr hx
        rcases List.mem_or_eq_of_mem_set hr with hr | hr
        · exact h r hr hx
        · rw [hr] at hx; simp at hx

theorem Server.buffersZero_run (beyond : List Nat) (acts : List Action) :
    ∀ s : Server, (∀ r ∈ s.receivers, r.pc ≠ .exited → r.buf = memset BUF_SIZE 0) →
      ∀ r ∈ (Server.run beyond s acts).receivers, r.pc ≠ .exited → r.buf = memset BUF_SIZE 0 := by
  induction acts with
  | nil => intro s h; exact h
  | cons a acts ih =>
    intro s h
    exact ih _ (Server.buffersZero_step beyond s a h)

/-- X7. In every run of `tcp_server.c`, every receive thread that has not
ended holds an all-zero `receive_msgBuffer` while it tests its loop condition
or waits in `read`: each `read` fills a buffer that is all zero bytes. -/
theorem receive_buffer_zero_before_read (beyond : List Nat) (tcp_socket : Int) (stdin : List Nat) (acts : List Action) :
    ∀ r ∈ (Server.run beyond (Server.start tcp_socket stdin) acts).receivers,
      r.pc ≠ .exited → r.buf = memset BUF_SIZE 0 :=
  Server.buffersZero_run beyond acts _ (by simp [Server.start])

set_option maxRecDepth 100000 in
/-- X7 at an input: the first client sends `hi`; after the display the
thread is back at its loop test with a zeroed buffer. -/
theorem receive_buffer_zero_before_read_witness :
    (⟨4, memset BUF_SIZE 0, .atTest⟩ : Receiver) ∈ (Server.run [] (Server.start 3 [])
        [.selectReturns (.ready .listenerOnly), .acceptReturns (.connection 4) true true,
         .receiverTest 0, .readReturns 0 (.bytes [104, 105])]).receivers ∧
    (⟨4, memset BUF_SIZE 0, .atTest⟩ : Receiver).pc ≠ .exited ∧
    (⟨4, memset BUF_SIZE 0, .atTest⟩ : Receiver).buf = memset BUF_SIZE 0 :=
  ⟨by decide, by decide,
   receive_buffer_zero_before_read [] 3 []
     [.selectReturns (.ready .listenerOnly), .acceptReturns (.connection 4) true true,
      .receiverTest 0, .readReturns 0 (.bytes [104, 105])] ⟨4, memset BUF_SIZE 0, .atTest⟩
     (by decide) (by decide)⟩

end TcpChat
